import Mathlib

/-!
pdfsign: visual signature objects and the page locator.

A shallow embedding of `sign/pdfvisualsignature.go`:

* `findPageByNumber`        (lines 163-179), the page locator;
* `createVisualSignature`   (lines 30-120), the builder of the signature annotation;
* `createIncPageUpdate`     (lines 122-160), the builder of the revised page object.

The parsed document is the `pdf.Value` of the `github.com/digitorus/pdf` reader.  It is
embedded as a finite tree in which every value carries the object pointer that `GetPtr`
returns for it; a dictionary is the list of its entries in the order in which `Keys` lists
them.  Byte buffers are `String`s, `WriteString` is `++`.  Unsigned 32-bit values
are naturals; the one place where wrap-around can happen (`pageNumber--`) is explicit.
-/

namespace PdfSign

set_option maxRecDepth 100000

/-! ## The object graph reader (`pdf.Value`) -/

/-- An object pointer: identifier and generation (`GetID`, `GetGen`). -/
structure ObjPtr where
  id : Nat
  gen : Nat
deriving DecidableEq, Repr

/-- A `float64`: a finite value `(-1)^neg * mant * 2^exp`, an infinity, or a NaN. -/
inductive Float64 where
  | finite (neg : Bool) (mant : Nat) (exp : Int)
  | inf (neg : Bool)
  | nan
deriving DecidableEq, Repr

/-- A `pdf.Value`: the data of one PDF value together with the pointer of the object it was
read from.  A value reached through an indirect reference carries the pointer of the
referenced object, a direct value the pointer of the object that contains it. -/
inductive Value where
  | null (ptr : ObjPtr)
  | bool (ptr : ObjPtr) (b : Bool)
  | integer (ptr : ObjPtr) (i : Int)
  | real (ptr : ObjPtr) (x : Float64)
  | string (ptr : ObjPtr) (s : String)
  | name (ptr : ObjPtr) (s : String)
  | dict (ptr : ObjPtr) (entries : List (String × Value))
  | array (ptr : ObjPtr) (elems : List Value)
  | stream (ptr : ObjPtr) (hdr : List (String × Value)) (offset : Nat)

namespace Value

/-- The zero value `pdf.Value{}`: a null without a pointer. -/
def zero : Value := .null ⟨0, 0⟩

/-- The pointer of a value (`GetPtr`). -/
def GetPtr : Value → ObjPtr
  | .null p => p
  | .bool p _ => p
  | .integer p _ => p
  | .real p _ => p
  | .string p _ => p
  | .name p _ => p
  | .dict p _ => p
  | .array p _ => p
  | .stream p _ _ => p

/-- Whether a value is the PDF null (`IsNull`). -/
def IsNull : Value → Bool
  | .null _ => true
  | _ => false

/-- The value stored under `key` in a dictionary body; a missing key resolves to a null that
keeps the pointer of the dictionary. -/
def lookupKey (ptr : ObjPtr) : List (String × Value) → String → Value
  | [], _ => .null ptr
  | (k, x) :: rest, key => if k = key then x else lookupKey ptr rest key

/-- The value of a key of a dictionary or of a stream header (`Key`); the zero value on
anything else. -/
def Key : Value → String → Value
  | .dict ptr entries, key => lookupKey ptr entries key
  | .stream ptr hdr _, key => lookupKey ptr hdr key
  | _, _ => zero

/-- The keys of a dictionary or of a stream header (`Keys`), in the order of the entries. -/
def Keys : Value → List String
  | .dict _ entries => entries.map Prod.fst
  | .stream _ hdr _ => hdr.map Prod.fst
  | _ => []

/-- The length of an array (`Len`); 0 on anything else. -/
def Len : Value → Nat
  | .array _ elems => elems.length
  | _ => 0

/-- The `i`-th element of an array (`Index`); the zero value when there is none. -/
def Index : Value → Nat → Value
  | .array _ elems, i => elems.getD i zero
  | _, _ => zero

/-- The text of a name (`Name`); the empty string on anything else. -/
def Name : Value → String
  | .name _ s => s
  | _ => ""

mutual
/-- The number of nodes of a value, the measure the page locator descends on. -/
def size : Value → Nat
  | .dict _ entries => 1 + sizeEntries entries
  | .array _ elems => 1 + sizeList elems
  | .stream _ hdr _ => 1 + sizeEntries hdr
  | _ => 1
/-- The number of nodes of the values of a dictionary body. -/
def sizeEntries : List (String × Value) → Nat
  | [] => 0
  | (_, x) :: rest => size x + sizeEntries rest
/-- The number of nodes of the elements of an array. -/
def sizeList : List Value → Nat
  | [] => 0
  | x :: rest => size x + sizeList rest
end

theorem size_lookupKey_le (ptr : ObjPtr) (entries : List (String × Value)) (key : String) :
    (lookupKey ptr entries key).size ≤ 1 + sizeEntries entries := by
  induction entries with
  | nil => simp [lookupKey, size]
  | cons e rest ih =>
    obtain ⟨k, x⟩ := e
    simp only [lookupKey, sizeEntries]
    split <;> omega

theorem size_Key_le (v : Value) (key : String) : (v.Key key).size ≤ v.size := by
  cases v <;> simp [Key, zero, size, size_lookupKey_le]

theorem size_getD_lt (elems : List Value) (i : Nat) (h : i < elems.length) :
    (elems.getD i zero).size < 1 + sizeList elems := by
  induction elems generalizing i with
  | nil => simp at h
  | cons x rest ih =>
    cases i with
    | zero => simp [sizeList]; omega
    | succ j =>
      have := ih j (by simpa using h)
      simp [sizeList] at this ⊢; omega

theorem size_Index_lt (v : Value) (i : Nat) (h : i < v.Len) : (v.Index i).size < v.size := by
  cases v <;> simp only [Len, Nat.not_lt_zero] at h
  simp only [Index, size]
  exact size_getD_lt _ _ h

end Value

/-! ## Errors and formatting -/

/-- A Go `error`: one made by `fmt.Errorf` from a message, or one that wraps a cause with
`%w` behind a message prefix. -/
inductive GoError where
  | errorf (msg : String)
  | wrap (msg : String) (cause : GoError)
deriving DecidableEq, Repr

/-- The message of an error (`Error`). -/
def GoError.Error : GoError → String
  | .errorf msg => msg
  | .wrap msg cause => msg ++ cause.Error

/-- The decimal rendering of an unsigned integer (`strconv.Itoa`, `%d`). -/
def itoa (n : Nat) : String := Nat.repr n

/-- The nearest integer to `num / den`, ties to even. -/
def roundHalfEven (num den : Nat) : Nat :=
  let q := num / den
  let r := num % den
  if den < 2 * r ∨ (2 * r = den ∧ q % 2 = 1) then q + 1 else q

/-- The magnitude of a finite `float64` in millionths, rounded to the nearest integer. -/
def Float64.micros (mant : Nat) (exp : Int) : Nat :=
  roundHalfEven (mant * 1000000 * 2 ^ exp.toNat) (2 ^ (-exp).toNat)

/-- The text of a string left-padded with zeros to a width. -/
def padZeros (width : Nat) (s : String) : String :=
  String.mk (List.replicate (width - s.length) '0') ++ s

/-- The verb `%f` of `fmt.Sprintf` on a `float64`: six decimals, correctly rounded. -/
def Float64.fmtF : Float64 → String
  | .nan => "NaN"
  | .inf false => "+Inf"
  | .inf true => "-Inf"
  | .finite neg mant exp =>
    (if neg then "-" else "") ++ itoa (Float64.micros mant exp / 1000000) ++ "." ++
      padZeros 6 (itoa (Float64.micros mant exp % 1000000))

/-- Modelled from the spec: `pdfString` is a helper of the package that is not part of
`pdfvisualsignature.go`.  The end-to-end scenario of the spec gives the title of the field as
`/T (Signature 2)`: the text between parentheses. -/
def pdfString (text : String) : String := "(" ++ text ++ ")"

/-! ## The page locator -/

/-- The statement `pageNumber--` on a `uint32`. -/
def uint32Dec (n : Nat) : Nat := (n + 4294967295) % 4294967296

/-- The error of the locator: `fmt.Errorf("page number %d not found", pageNumber)`. -/
def pageNotFound (pageNumber : Nat) : GoError :=
  .errorf ("page number " ++ itoa pageNumber ++ " not found")

mutual
/-- The function `findPageByNumber(pages, pageNumber)`.  The parameter `pageNumber` is passed
by value: the decrement at a leaf only reaches the error message of that leaf. -/
def findPageByNumber (pages : Value) (pageNumber : Nat) : Except GoError Value :=
  if (pages.Key "Type").Name = "Pages" then
    match findInKids (pages.Key "Kids") 0 pageNumber with
    | some page => .ok page
    | none => .error (pageNotFound pageNumber)
  else if (pages.Key "Type").Name = "Page" then
    if pageNumber = 1 then .ok pages
    else .error (pageNotFound (uint32Dec pageNumber))
  else .error (pageNotFound pageNumber)
termination_by (pages.size, 1, 0)
decreasing_by
  rcases Nat.lt_or_eq_of_le (Value.size_Key_le pages "Kids") with h | h
  · exact Prod.Lex.left _ _ h
  · rw [h]; exact Prod.Lex.right _ (Prod.Lex.left _ _ Nat.zero_lt_one)
/-- The loop `for i := 0; i < kids.Len(); i++` of `findPageByNumber`, from index `i` on: the
first kid on which the recursive call succeeds, if there is one. -/
def findInKids (kids : Value) (i : Nat) (pageNumber : Nat) : Option Value :=
  if i < kids.Len then
    match findPageByNumber (kids.Index i) pageNumber with
    | .ok page => some page
    | .error _ => findInKids kids (i + 1) pageNumber
  else none
termination_by (kids.size, 0, kids.Len - i)
decreasing_by
  · exact Prod.Lex.left _ _ (Value.size_Index_lt kids i (by assumption))
  · exact Prod.Lex.right _ (Prod.Lex.right _ (by omega))
end

mutual
/-- The leaves of a page tree in document order: the `Page` nodes met depth-first, left to
right, through `Pages` nodes. -/
def pageLeaves (node : Value) : List Value :=
  if (node.Key "Type").Name = "Pages" then leavesOfKids (node.Key "Kids") 0
  else if (node.Key "Type").Name = "Page" then [node]
  else []
termination_by (node.size, 1, 0)
decreasing_by
  rcases Nat.lt_or_eq_of_le (Value.size_Key_le node "Kids") with h | h
  · exact Prod.Lex.left _ _ h
  · rw [h]; exact Prod.Lex.right _ (Prod.Lex.left _ _ Nat.zero_lt_one)
/-- The leaves below the kids of index `i` and more. -/
def leavesOfKids (kids : Value) (i : Nat) : List Value :=
  if i < kids.Len then pageLeaves (kids.Index i) ++ leavesOfKids kids (i + 1)
  else []
termination_by (kids.size, 0, kids.Len - i)
decreasing_by
  · exact Prod.Lex.left _ _ (Value.size_Index_lt kids i (by assumption))
  · exact Prod.Lex.right _ (Prod.Lex.right _ (by omega))
end

/-! ## The signing context and its collaborators -/

/-- The reader of the parsed document (`PDFReader`); `Trailer` is its trailer dictionary. -/
structure Reader where
  Trailer : Value

/-- The part of `CatalogData` that `createVisualSignature` writes. -/
structure CatalogData where
  ObjectId : Nat
  RootString : String
deriving DecidableEq, Repr

/-- The part of `VisualSignData` that `createVisualSignature` writes. -/
structure VisualSignData where
  ObjectId : Nat
  pageObjectId : Nat
deriving DecidableEq, Repr

/-- The part of `SignData` that is read: the identifier of the signature-value object. -/
structure SignData where
  objectId : Nat
deriving DecidableEq, Repr

/-- The signing context.  `newObjects` stands for the object store that `addObject` fills;
`existingSignatures` is only read for its length. -/
structure SignContext where
  PDFReader : Reader
  CatalogData : PdfSign.CatalogData
  VisualSignData : PdfSign.VisualSignData
  SignData : PdfSign.SignData
  existingSignatures : List PdfSign.SignData
  newObjects : List String

/-- The rectangle argument `rect [4]float64`. -/
structure Rect where
  r0 : Float64
  r1 : Float64
  r2 : Float64
  r3 : Float64
deriving DecidableEq, Repr

/-- The two methods of the context that `createVisualSignature` calls and that live in other
files of the package.  Each one returns its result together with the context it leaves. -/
structure Collaborators where
  createAppearance : SignContext → Rect → Except GoError String × SignContext
  addObject : SignContext → String → Except GoError Nat × SignContext

/-! ## The annotation builder -/

/-- The annotation flag constants (lines 12-23). -/
def AnnotationFlagInvisible : Nat := 1 <<< 0
def AnnotationFlagHidden : Nat := 1 <<< 1
def AnnotationFlagPrint : Nat := 1 <<< 2
def AnnotationFlagNoZoom : Nat := 1 <<< 3
def AnnotationFlagNoRotate : Nat := 1 <<< 4
def AnnotationFlagNoView : Nat := 1 <<< 5
def AnnotationFlagReadOnly : Nat := 1 <<< 6
def AnnotationFlagLocked : Nat := 1 <<< 7
def AnnotationFlagToggleNoView : Nat := 1 <<< 8
def AnnotationFlagLockedContents : Nat := 1 <<< 9

/-- The loop over `root_keys` that sets `found_pages`. -/
def foundPages : List String → Bool
  | [] => false
  | key :: rest => if key = "Pages" then true else foundPages rest

/-- Lines 104-119 of `createVisualSignature`: the flags, the field type, the title, the
reference to the signature value and the closing marker, written after `buf`. -/
def writeFieldEntries (context : SignContext) (buf : String) : String :=
  let annotationFlags := AnnotationFlagPrint ||| AnnotationFlagLocked
  let buf := buf ++ ("  /F " ++ itoa annotationFlags ++ "\n")
  let buf := buf ++ "  /FT /Sig\n"
  let buf := buf ++ ("  /T " ++ pdfString ("Signature " ++ itoa (context.existingSignatures.length + 1)) ++ "\n")
  let buf := buf ++ ("  /V " ++ itoa context.SignData.objectId ++ " 0 R\n")
  buf ++ ">>\n"

/-- Lines 69-119 of `createVisualSignature`: everything after the branch on `visible`, with
the buffer `buf` written so far. -/
def finishVisualSignature (context : SignContext) (buf : String) (pageNumber : Nat) :
    Except GoError String × SignContext :=
  let root := context.PDFReader.Trailer.Key "Root"
  let root_keys := root.Keys
  let found_pages := foundPages root_keys
  let rootPtr := root.GetPtr
  let context := { context with
    CatalogData := { context.CatalogData with
      RootString := itoa rootPtr.id ++ " " ++ itoa rootPtr.gen ++ " R" } }
  if found_pages then
    match findPageByNumber (root.Key "Pages") pageNumber with
    | .error err => (.error err, context)
    | .ok page =>
      let page_ptr := page.GetPtr
      let context := { context with
        VisualSignData := { context.VisualSignData with pageObjectId := page_ptr.id } }
      let buf := buf ++ ("  /P " ++ itoa page_ptr.id ++ " " ++ itoa page_ptr.gen ++ " R\n")
      (.ok (writeFieldEntries context buf), context)
  else
    (.ok (writeFieldEntries context buf), context)

/-- Lines 31-67 of `createVisualSignature`: the opening of the dictionary and the branch on
`visible`.  The result is the buffer written so far, or the error that the method returns
there, together with the context that the collaborators leave. -/
def startVisualSignature (env : Collaborators) (context : SignContext) (visible : Bool)
    (rect : Rect) : Except GoError String × SignContext :=
  let buf := ""
  let buf := buf ++ "<<\n"
  let buf := buf ++ "  /Type /Annot\n"
  let buf := buf ++ "  /Subtype /Widget\n"
  if visible then
    let buf := buf ++ ("  /Rect [" ++ rect.r0.fmtF ++ " " ++ rect.r1.fmtF ++ " " ++
      rect.r2.fmtF ++ " " ++ rect.r3.fmtF ++ "]\n")
    match env.createAppearance context rect with
    | (.error err, context) => (.error (.wrap "failed to create appearance: " err), context)
    | (.ok appearance, context) =>
      match env.addObject context appearance with
      | (.error err, context) => (.error (.wrap "failed to add appearance object: " err), context)
      | (.ok appearanceObjectId, context) =>
        let buf := buf ++ ("  /AP << /N " ++ itoa appearanceObjectId ++ " 0 R >>\n")
        (.ok buf, context)
  else
    let buf := buf ++ "  /Rect [0 0 0 0]\n"
    let buf := buf ++ " /TU (Digital signature field (non-interactive))\n"
    let buf := buf ++ " /Alt (This is a digital signature ensuring document integrity and authenticity)\n"
    (.ok buf, context)

/-- The method `createVisualSignature(visible, pageNumber, rect)`: lines 31-67, then lines
69-119.  The result is the pair of what the method returns (the bytes, or the error with no
bytes) and the context it leaves. -/
def createVisualSignature (env : Collaborators) (context : SignContext) (visible : Bool)
    (pageNumber : Nat) (rect : Rect) : Except GoError String × SignContext :=
  match startVisualSignature env context visible rect with
  | (.error err, context) => (.error err, context)
  | (.ok buf, context) => finishVisualSignature context buf pageNumber

/-- The root object that `createVisualSignature` reads: `Trailer().Key("Root")`. -/
def SignContext.root (context : SignContext) : Value :=
  context.PDFReader.Trailer.Key "Root"

/-- The value of the constant `expected_visual_signature` of `TestVisualSignature`. -/
def expected_visual_signature : String :=
  "<< /Type /Annot /Subtype /Widget /Rect [0 0 0 0] /P 4 0 R /F 132 /FT /Sig /T (Signature 1) /Ff 0 /V 13 0 R >>\n"

/-! ## The incremental page update -/

/-- The formatting of the two scalar kinds whose text the `pdf` library leaves to the Go
runtime: `fmt.Sprint` on a `float64`, and the quoting of a decoded string. -/
structure ScalarFmt where
  real : Float64 → String
  string : String → String

/-- The decimal rendering of a signed integer (`fmt.Sprint` on an `int64`). -/
def itoaInt (i : Int) : String :=
  if i < 0 then "-" ++ itoa i.natAbs else itoa i.toNat

/-- The text of an indirect reference, `id gen R`. -/
def refText (ptr : ObjPtr) : String := itoa ptr.id ++ " " ++ itoa ptr.gen ++ " R"

mutual
/-- The textual representation of a value (`String`).  Inside a dictionary or an array, an
element that was reached through an indirect reference (its pointer is not the pointer of
the containing object) is written as that reference. -/
def Value.String (fmt : ScalarFmt) : Value → String
  | .null _ => "<nil>"
  | .bool _ b => if b then "true" else "false"
  | .integer _ i => itoaInt i
  | .real _ x => fmt.real x
  | .string _ s => fmt.string s
  | .name _ s => "/" ++ s
  | .dict p entries => "<<" ++ Value.fmtDict fmt p entries ++ ">>"
  | .array p elems => "[" ++ Value.fmtArray fmt p elems ++ "]"
  | .stream p hdr offset => "<<" ++ Value.fmtDict fmt p hdr ++ ">>" ++ "@" ++ itoa offset

/-- The entries of a dictionary body, separated by blanks. -/
def Value.fmtDict (fmt : ScalarFmt) (owner : ObjPtr) : List (String × Value) → String
  | [] => ""
  | (k, x) :: rest =>
    "/" ++ k ++ " " ++ (if x.GetPtr = owner then Value.String fmt x else refText x.GetPtr) ++
      (match rest with
       | [] => ""
       | _ :: _ => " " ++ Value.fmtDict fmt owner rest)

/-- The elements of an array, separated by blanks. -/
def Value.fmtArray (fmt : ScalarFmt) (owner : ObjPtr) : List Value → String
  | [] => ""
  | x :: rest =>
    (if x.GetPtr = owner then Value.String fmt x else refText x.GetPtr) ++
      (match rest with
       | [] => ""
       | _ :: _ => " " ++ Value.fmtArray fmt owner rest)
end

/-- The body of the loop over `page.Key("Annots")` (lines 142-145): one reference line for
the entry of index `i`. -/
def writeAnnotEntry (page : Value) (key : String) (buf : String) (i : Nat) : String :=
  let ptr := ((page.Key key).Index i).GetPtr
  buf ++ ("    " ++ itoa ptr.id ++ " 0 R\n")

/-- The body of the loop over `page.Keys()` (lines 136-150): what is written for one key. -/
def writePageKey (fmt : ScalarFmt) (page : Value) (annot : Nat) (buf : String) (key : String) :
    String :=
  if key = "Contents" ∨ key = "Parent" then
    let ptr := (page.Key key).GetPtr
    buf ++ ("  /" ++ key ++ " " ++ itoa ptr.id ++ " 0 R\n")
  else if key = "Annots" then
    let buf := buf ++ "  /Annots [\n"
    let buf := (List.range (page.Key "Annots").Len).foldl (writeAnnotEntry page key) buf
    let buf := buf ++ ("    " ++ itoa annot ++ " 0 R\n")
    buf ++ "  ]\n"
  else
    buf ++ ("  /" ++ key ++ " " ++ (page.Key key).String fmt ++ "\n")

/-- Lines 132-159 of `createIncPageUpdate`: the revised dictionary of a located page. -/
def writePageUpdate (fmt : ScalarFmt) (page : Value) (annot : Nat) : String :=
  let buf := ""
  let buf := buf ++ "<<\n"
  let buf := page.Keys.foldl (writePageKey fmt page annot) buf
  let buf := if (page.Key "Annots").IsNull then buf ++ ("  /Annots [" ++ itoa annot ++ " 0 R]\n")
    else buf
  buf ++ ">>\n"

/-- The method `createIncPageUpdate(pageNumber, annot)`: the bytes, or the error with no
bytes.  The method only reads the context. -/
def createIncPageUpdate (fmt : ScalarFmt) (context : SignContext) (pageNumber annot : Nat) :
    Except GoError String :=
  let root := context.PDFReader.Trailer.Key "Root"
  match findPageByNumber (root.Key "Pages") pageNumber with
  | .error err => .error err
  | .ok page => .ok (writePageUpdate fmt page annot)

/-! ## Reading the output -/

/-- The value of a decimal digit character. -/
def digitVal (c : Char) : Nat := c.toNat - 48

/-- The number that a list of decimal digits denotes. -/
def decimalValue (ds : List Char) : Nat := ds.foldl (fun a c => 10 * a + digitVal c) 0

/-- The lines of a text: the pieces that end at each line feed, and what follows the last
line feed when that is not empty. -/
def splitLines : List Char → List (List Char)
  | [] => []
  | c :: cs =>
    if c = '\n' then [] :: splitLines cs
    else
      match splitLines cs with
      | [] => [[c]]
      | l :: ls => (c :: l) :: ls

/-- The lines of a byte buffer. -/
def linesOf (s : String) : List String := (splitLines s.data).map String.mk

/-- A buffer that is empty or ends with a line feed. -/
def Terminated (s : String) : Prop := s.data = [] ∨ ∃ l, s.data = l ++ ['\n']

/-- Whether a line of a dictionary is the entry of a key: after its indentation it starts
with the name of the key and a blank. -/
def hasKey (key : String) (line : String) : Bool :=
  ("/" ++ key ++ " ").data.isPrefixOf (line.data.dropWhile (fun c => c == ' '))

/-- The lines that `writeFieldEntries` writes for a context. -/
def fieldLines (context : SignContext) : List String :=
  ["  /F 132", "  /FT /Sig",
   "  /T (Signature " ++ itoa (context.existingSignatures.length + 1) ++ ")",
   "  /V " ++ itoa context.SignData.objectId ++ " 0 R", ">>"]

/-- The lines written by lines 31-67 of `createVisualSignature` when `visible` is false. -/
def invisibleLines : List String :=
  ["<<", "  /Type /Annot", "  /Subtype /Widget", "  /Rect [0 0 0 0]",
   " /TU (Digital signature field (non-interactive))",
   " /Alt (This is a digital signature ensuring document integrity and authenticity)"]

/-- The `/Rect` line of a visible signature. -/
def rectLine (rect : Rect) : String :=
  "  /Rect [" ++ rect.r0.fmtF ++ " " ++ rect.r1.fmtF ++ " " ++ rect.r2.fmtF ++ " " ++
    rect.r3.fmtF ++ "]"

/-- The `/AP` line of a visible signature whose appearance is the object `id`. -/
def appearanceLine (id : Nat) : String := "  /AP << /N " ++ itoa id ++ " 0 R >>"

/-- The lines written by lines 31-67 of `createVisualSignature` when `visible` is true and
the appearance is the object `id`. -/
def visibleLines (rect : Rect) (id : Nat) : List String :=
  ["<<", "  /Type /Annot", "  /Subtype /Widget", rectLine rect, appearanceLine id]

/-- The `/P` line for a page pointer. -/
def pageLine (ptr : ObjPtr) : String := "  /P " ++ itoa ptr.id ++ " " ++ itoa ptr.gen ++ " R"

/-- The context that lines 83-85 leave: `RootString` holds the reference of the root. -/
def withRootString (context : SignContext) : SignContext :=
  { context with
    CatalogData := { context.CatalogData with
      RootString := itoa context.root.GetPtr.id ++ " " ++ itoa context.root.GetPtr.gen ++ " R" } }

/-- The context that line 98 leaves: `pageObjectId` holds the identifier of the page. -/
def withPageObjectId (context : SignContext) (id : Nat) : SignContext :=
  { context with VisualSignData := { context.VisualSignData with pageObjectId := id } }

/-- The title of the signature field for a context: the PDF string of `Signature ` followed
by the number of existing signatures plus one. -/
def titleOf (context : SignContext) : String :=
  pdfString ("Signature " ++ itoa (context.existingSignatures.length + 1))

/-- The rational value of a finite `float64`, `(-1)^neg * mant * 2^exp`; none for an
infinity or a NaN. -/
def Float64.toRat : Float64 → Option ℚ
  | .finite neg mant exp =>
    some ((if neg then -1 else 1) * ((mant * 2 ^ exp.toNat : ℕ) : ℚ) / ((2 ^ (-exp).toNat : ℕ) : ℚ))
  | _ => none

/-- The number that a decimal token denotes: an optional minus sign, integer digits, a
point and fraction digits. -/
def readDecimal (s : String) : Option ℚ :=
  let neg := s.data.head? = some '-'
  let body := if neg then s.data.tail else s.data
  let ip := body.takeWhile (fun c => c != '.')
  let fp := (body.dropWhile (fun c => c != '.')).tail
  if ip ≠ [] ∧ ip.all Char.isDigit = true ∧ fp.all Char.isDigit = true ∧ '.' ∈ body then
    some ((if neg then -1 else 1) *
      ((decimalValue ip : ℚ) + (decimalValue fp : ℚ) / 10 ^ fp.length))
  else none

/-- The concatenation of a list of texts. -/
def joinAll : List String → String
  | [] => ""
  | s :: rest => s ++ joinAll rest

/-- What the loop over `page.Keys()` writes for one key. -/
def pageKeyText (fmt : ScalarFmt) (page : Value) (annot : Nat) (key : String) : String :=
  writePageKey fmt page annot "" key

/-- The reference line of an entry of the `Annots` array. -/
def annotRefLine (id : Nat) : String := "    " ++ itoa id ++ " 0 R"

/-! ## Sample documents -/

/-- A page leaf with the given reference and no other key than its type. -/
def samplePage (id gen : Nat) : Value :=
  .dict ⟨id, gen⟩ [("Type", .name ⟨id, gen⟩ "Page")]

/-- A page tree node `2 0 obj` of type `Pages` with the given kids. -/
def samplePages (kids : List Value) : Value :=
  .dict ⟨2, 0⟩ [("Type", .name ⟨2, 0⟩ "Pages"), ("Kids", .array ⟨2, 0⟩ kids),
    ("Count", .integer ⟨2, 0⟩ kids.length)]

/-- A document whose catalog `1 0 obj` has the given page tree. -/
def sampleReader (pages : Value) : Reader :=
  ⟨.dict ⟨0, 0⟩ [("Root", .dict ⟨1, 0⟩ [("Type", .name ⟨1, 0⟩ "Catalog"), ("Pages", pages)])]⟩

/-- A document whose catalog `1 0 obj` has no `Pages` key. -/
def sampleReaderNoPages : Reader :=
  ⟨.dict ⟨0, 0⟩ [("Root", .dict ⟨1, 0⟩ [("Type", .name ⟨1, 0⟩ "Catalog")])]⟩

/-- A signing context over a reader, with `n` existing signatures and the signature value in
object 13. -/
def sampleContext (reader : Reader) (n : Nat) : SignContext :=
  { PDFReader := reader
    CatalogData := ⟨11, ""⟩
    VisualSignData := ⟨10, 0⟩
    SignData := ⟨13⟩
    existingSignatures := List.replicate n ⟨0⟩
    newObjects := [] }

/-- Collaborators that succeed: the appearance is the text `APP`, the allocator stores the
object and returns the identifier 14. -/
def sampleEnv : Collaborators :=
  { createAppearance := fun c _ => (.ok "APP", c)
    addObject := fun c object => (.ok 14, { c with newObjects := c.newObjects ++ [object] }) }

/-- A rectangle with corners (0, 0) and (100, 50). -/
def sampleRect : Rect :=
  ⟨.finite false 0 0, .finite false 0 0, .finite false 25 2, .finite false 25 1⟩

/-- A rectangle whose left edge is at 2^-20: (2^-20, 0) to (1, 1). -/
def tinyRect : Rect :=
  ⟨.finite false 1 (-20), .finite false 0 0, .finite false 1 0, .finite false 1 0⟩

/-- A formatting of the scalars for the sample documents. -/
def sampleFmt : ScalarFmt :=
  { real := fun x => x.fmtF
    string := fun s => "\"" ++ s ++ "\"" }

/-- A page `4 0 obj` with two annotations `8 0 R` and `9 1 R`, a content stream `6 2 R`, a
direct media box, the parent `2 0 R`, resources in the object `5 0` and its type. -/
def sampleFullPage : Value :=
  .dict ⟨4, 0⟩
    [("Annots", .array ⟨4, 0⟩ [.dict ⟨8, 0⟩ [], .dict ⟨9, 1⟩ []]),
     ("Contents", .stream ⟨6, 2⟩ [("Length", .integer ⟨6, 2⟩ 44)] 120),
     ("MediaBox", .array ⟨4, 0⟩
        [.integer ⟨4, 0⟩ 0, .integer ⟨4, 0⟩ 0, .integer ⟨4, 0⟩ 612, .integer ⟨4, 0⟩ 792]),
     ("Parent", .dict ⟨2, 0⟩ [("Type", .name ⟨2, 0⟩ "Pages")]),
     ("Resources", .dict ⟨5, 0⟩ [("Font", .dict ⟨5, 0⟩ [("F1", .dict ⟨7, 0⟩ [])])]),
     ("Type", .name ⟨4, 0⟩ "Page")]

/-- The page `sampleFullPage` with other generation numbers on the objects it refers to:
annotations `8 3 R` and `9 0 R`, content stream `6 0 R`, parent `2 5 R`. -/
def sampleFullPageGen : Value :=
  .dict ⟨4, 0⟩
    [("Annots", .array ⟨4, 0⟩ [.dict ⟨8, 3⟩ [], .dict ⟨9, 0⟩ []]),
     ("Contents", .stream ⟨6, 0⟩ [("Length", .integer ⟨6, 0⟩ 44)] 120),
     ("MediaBox", .array ⟨4, 0⟩
        [.integer ⟨4, 0⟩ 0, .integer ⟨4, 0⟩ 0, .integer ⟨4, 0⟩ 612, .integer ⟨4, 0⟩ 792]),
     ("Parent", .dict ⟨2, 5⟩ [("Type", .name ⟨2, 5⟩ "Pages")]),
     ("Resources", .dict ⟨5, 0⟩ [("Font", .dict ⟨5, 0⟩ [("F1", .dict ⟨7, 0⟩ [])])]),
     ("Type", .name ⟨4, 0⟩ "Page")]

/-- A page `4 0 obj` whose `Contents` is a direct array of two content streams. -/
def directContentsPage : Value :=
  .dict ⟨4, 0⟩
    [("Contents", .array ⟨4, 0⟩
        [.stream ⟨6, 0⟩ [("Length", .integer ⟨6, 0⟩ 44)] 120,
         .stream ⟨7, 0⟩ [("Length", .integer ⟨7, 0⟩ 12)] 300]),
     ("Type", .name ⟨4, 0⟩ "Page")]

/-- A page `4 0 obj` that has the entry `/Annots null`. -/
def nullAnnotsPage : Value :=
  .dict ⟨4, 0⟩ [("Annots", .null ⟨4, 0⟩), ("Type", .name ⟨4, 0⟩ "Page")]

/-! ## Digits and lines -/

theorem digitChar_isDigit (k : Nat) (hk : k < 10) : (Nat.digitChar k).isDigit = true := by
  interval_cases k <;> decide

theorem digitVal_digitChar (k : Nat) (hk : k < 10) : digitVal (Nat.digitChar k) = k := by
  interval_cases k <;> decide

theorem toDigitsCore_isDigit (fuel n : Nat) (ds : List Char)
    (hds : ∀ c ∈ ds, c.isDigit = true) :
    ∀ c ∈ Nat.toDigitsCore 10 fuel n ds, c.isDigit = true := by
  induction fuel generalizing n ds with
  | zero => simpa [Nat.toDigitsCore] using hds
  | succ fuel ih =>
    have hd : ∀ c ∈ Nat.digitChar (n % 10) :: ds, c.isDigit = true := by
      intro c hc
      rcases List.mem_cons.mp hc with h | h
      · rw [h]; exact digitChar_isDigit _ (Nat.mod_lt _ (by decide))
      · exact hds c h
    simp only [Nat.toDigitsCore]
    split
    · exact hd
    · exact ih _ _ hd

theorem itoa_isDigit (n : Nat) : ∀ c ∈ (itoa n).data, c.isDigit = true := by
  simp only [itoa, Nat.repr, Nat.toDigits, List.asString]
  exact toDigitsCore_isDigit _ _ _ (by simp)

theorem decimalValue_toDigitsCore (fuel n : Nat) (ds : List Char) (h : n < fuel) :
    (Nat.toDigitsCore 10 fuel n ds).foldl (fun a c => 10 * a + digitVal c) 0 =
      ds.foldl (fun a c => 10 * a + digitVal c) n := by
  induction fuel generalizing n ds with
  | zero => omega
  | succ fuel ih =>
    simp only [Nat.toDigitsCore]
    split
    · rename_i h0
      simp only [List.foldl_cons, digitVal_digitChar _ (Nat.mod_lt n (by decide : 0 < 10))]
      congr 1; omega
    · rename_i h0
      rw [ih _ _ (by omega)]
      simp only [List.foldl_cons, digitVal_digitChar _ (Nat.mod_lt n (by decide : 0 < 10))]
      congr 1; omega

theorem decimalValue_itoa (n : Nat) : decimalValue (itoa n).data = n := by
  simp only [itoa, Nat.repr, Nat.toDigits, List.asString, decimalValue]
  rw [decimalValue_toDigitsCore _ _ _ (Nat.lt_succ_self n)]
  rfl

theorem itoa_injective : Function.Injective itoa := by
  intro a b h
  rw [← decimalValue_itoa a, ← decimalValue_itoa b, h]

theorem splitLines_ne_nil (cs : List Char) (h : cs ≠ []) : splitLines cs ≠ [] := by
  cases cs with
  | nil => exact absurd rfl h
  | cons c cs =>
    simp only [splitLines]
    split
    · simp
    · split <;> simp

theorem splitLines_line (l rest : List Char) (hl : '\n' ∉ l) :
    splitLines (l ++ '\n' :: rest) = l :: splitLines rest := by
  induction l with
  | nil => simp [splitLines]
  | cons c l ih =>
    have hc : c ≠ '\n' := fun h => hl (by simp [h])
    have hl2 : '\n' ∉ l := fun h => hl (List.mem_cons_of_mem _ h)
    rw [List.cons_append, splitLines, if_neg hc, ih hl2]

theorem splitLines_append (a b : List Char) (ha : a = [] ∨ ∃ l, a = l ++ ['\n']) :
    splitLines (a ++ b) = splitLines a ++ splitLines b := by
  induction a with
  | nil => simp [splitLines]
  | cons c cs ih =>
    have hcs : cs = [] ∨ ∃ l, cs = l ++ ['\n'] := by
      rcases ha with ha | ⟨l, hl⟩
      · cases ha
      · cases l with
        | nil => left; simpa using (List.cons.inj hl).2
        | cons x l => right; exact ⟨l, by simpa using (List.cons.inj hl).2⟩
    by_cases hc : c = '\n'
    · rw [List.cons_append, splitLines, if_pos hc, splitLines, if_pos hc, ih hcs]; rfl
    · have hne : cs ≠ [] := by
        rintro rfl
        rcases ha with ha | ⟨l, hl⟩
        · cases ha
        · cases l with
          | nil => exact hc (by simpa using hl)
          | cons x l => simp at hl
      rw [List.cons_append, splitLines, if_neg hc, splitLines, if_neg hc, ih hcs]
      cases h : splitLines cs with
      | nil => exact absurd h (splitLines_ne_nil cs hne)
      | cons l ls => rfl

theorem linesOf_append (a b : String) (ha : Terminated a) :
    linesOf (a ++ b) = linesOf a ++ linesOf b := by
  simp only [linesOf, String.data_append, splitLines_append _ _ ha, List.map_append]

theorem linesOf_single (body : String) (h : '\n' ∉ body.data) :
    linesOf (body ++ "\n") = [body] := by
  have := splitLines_line body.data [] h
  simp only [linesOf, String.data_append]
  rw [this]
  rfl

theorem Terminated.append (a b : String) (hb : Terminated b) (hne : b.data ≠ []) :
    Terminated (a ++ b) := by
  rcases hb with hb | ⟨l, hl⟩
  · exact absurd hb hne
  · exact Or.inr ⟨a.data ++ l, by simp [String.data_append, hl]⟩

theorem Terminated.snoc (body : String) : Terminated (body ++ "\n") :=
  Or.inr ⟨body.data, by simp [String.data_append]⟩

theorem itoa_no_newline (n : Nat) : '\n' ∉ (itoa n).data :=
  fun h => absurd (itoa_isDigit n _ h) (by decide)

theorem linesOf_write (buf body : String) (hb : Terminated buf) (h : '\n' ∉ body.data) :
    linesOf (buf ++ (body ++ "\n")) = linesOf buf ++ [body] := by
  rw [linesOf_append _ _ hb, linesOf_single _ h]

theorem Terminated.write (buf body : String) : Terminated (buf ++ (body ++ "\n")) :=
  Terminated.append _ _ (Terminated.snoc body) (by simp [String.data_append])

theorem writeFieldEntries_eq (context : SignContext) (buf : String) :
    writeFieldEntries context buf =
      buf ++ ("  /F 132" ++ "\n") ++ ("  /FT /Sig" ++ "\n") ++
        ("  /T (Signature " ++ itoa (context.existingSignatures.length + 1) ++ ")" ++ "\n") ++
        ("  /V " ++ itoa context.SignData.objectId ++ " 0 R" ++ "\n") ++ (">>" ++ "\n") := by
  have hF : itoa (AnnotationFlagPrint ||| AnnotationFlagLocked) = "132" := by decide
  simp only [writeFieldEntries, hF, pdfString]
  apply String.ext
  simp [String.data_append]

theorem linesOf_writeFieldEntries (context : SignContext) (buf : String) (hb : Terminated buf) :
    linesOf (writeFieldEntries context buf) = linesOf buf ++ fieldLines context := by
  rw [writeFieldEntries_eq]
  rw [linesOf_write _ _ (Terminated.write _ _) (by decide),
    linesOf_write _ _ (Terminated.write _ _) (by simp [String.data_append, itoa_no_newline]),
    linesOf_write _ _ (Terminated.write _ _) (by simp [String.data_append, itoa_no_newline]),
    linesOf_write _ _ (Terminated.write _ _) (by decide),
    linesOf_write _ _ hb (by decide)]
  simp [fieldLines]

/-! ## The lines of the annotation -/

theorem fmtF_no_newline (x : Float64) : '\n' ∉ x.fmtF.data := by
  cases x with
  | nan => decide
  | inf neg => cases neg <;> decide
  | finite neg mant exp =>
    cases neg <;>
      simp [Float64.fmtF, padZeros, String.data_append, itoa_no_newline, List.mem_replicate]

theorem startVisualSignature_invisible (env : Collaborators) (context : SignContext)
    (rect : Rect) :
    ∃ buf, startVisualSignature env context false rect = (.ok buf, context) ∧
      Terminated buf ∧ linesOf buf = invisibleLines := by
  refine ⟨_, rfl, ?_, ?_⟩
  · exact Terminated.append _ _ (Terminated.snoc " /Alt (This is a digital signature ensuring document integrity and authenticity)") (by decide)
  · decide

theorem startVisualSignature_visible (env : Collaborators) (context : SignContext)
    (rect : Rect) (buf : String) (c : SignContext)
    (h : startVisualSignature env context true rect = (.ok buf, c)) :
    ∃ appearance c1 id, env.createAppearance context rect = (.ok appearance, c1) ∧
      env.addObject c1 appearance = (.ok id, c) ∧
      Terminated buf ∧ linesOf buf = visibleLines rect id := by
  simp only [startVisualSignature, if_true] at h
  rcases hca : env.createAppearance context rect with ⟨r1, c1⟩
  rw [hca] at h
  cases r1 with
  | error e => simp at h
  | ok appearance =>
    simp only at h
    rcases hao : env.addObject c1 appearance with ⟨r2, c2⟩
    rw [hao] at h
    cases r2 with
    | error e => simp at h
    | ok id =>
      simp only [Prod.mk.injEq, Except.ok.injEq] at h
      obtain ⟨hbuf, hc⟩ := h
      subst hc
      have e : buf = "" ++ ("<<" ++ "\n") ++ ("  /Type /Annot" ++ "\n") ++
          ("  /Subtype /Widget" ++ "\n") ++ (rectLine rect ++ "\n") ++
          (appearanceLine id ++ "\n") := by
        rw [← hbuf]
        apply String.ext
        simp [String.data_append, rectLine, appearanceLine]
      refine ⟨appearance, c1, id, rfl, hao, ?_, ?_⟩
      · rw [e]
        exact Terminated.write _ _
      · rw [e]
        rw [linesOf_write _ _ (Terminated.write _ _)
            (by simp [appearanceLine, String.data_append, itoa_no_newline]),
          linesOf_write _ _ (Terminated.write _ _)
            (by simp [rectLine, String.data_append, fmtF_no_newline]),
          linesOf_write _ _ (Terminated.write _ _) (by decide),
          linesOf_write _ _ (Terminated.write _ _) (by decide),
          linesOf_write _ _ (Or.inl rfl) (by decide)]
        rfl

theorem linesOf_pageLine (buf : String) (ptr : ObjPtr) (hb : Terminated buf) :
    Terminated (buf ++ ("  /P " ++ itoa ptr.id ++ " " ++ itoa ptr.gen ++ " R\n")) ∧
    linesOf (buf ++ ("  /P " ++ itoa ptr.id ++ " " ++ itoa ptr.gen ++ " R\n")) =
      linesOf buf ++ [pageLine ptr] := by
  have e : "  /P " ++ itoa ptr.id ++ " " ++ itoa ptr.gen ++ " R\n" = pageLine ptr ++ "\n" := by
    apply String.ext
    simp [String.data_append, pageLine]
  rw [e]
  exact ⟨Terminated.write _ _,
    linesOf_write _ _ hb (by simp [pageLine, String.data_append, itoa_no_newline])⟩

theorem finishVisualSignature_noPages (context : SignContext) (buf : String) (n : Nat)
    (hb : Terminated buf) (h : foundPages context.root.Keys = false) :
    ∃ out, finishVisualSignature context buf n = (.ok out, withRootString context) ∧
      linesOf out = linesOf buf ++ fieldLines context := by
  refine ⟨_, ?_, linesOf_writeFieldEntries (withRootString context) buf hb⟩
  simp only [finishVisualSignature]
  rw [show context.PDFReader.Trailer.Key "Root" = context.root from rfl, h]
  rfl

theorem finishVisualSignature_found (context : SignContext) (buf : String) (n : Nat)
    (page : Value) (hb : Terminated buf) (h : foundPages context.root.Keys = true)
    (hp : findPageByNumber (context.root.Key "Pages") n = .ok page) :
    ∃ out, finishVisualSignature context buf n =
        (.ok out, withPageObjectId (withRootString context) page.GetPtr.id) ∧
      linesOf out = linesOf buf ++ [pageLine page.GetPtr] ++ fieldLines context := by
  obtain ⟨ht, hl⟩ := linesOf_pageLine buf page.GetPtr hb
  refine ⟨writeFieldEntries (withPageObjectId (withRootString context) page.GetPtr.id)
    (buf ++ ("  /P " ++ itoa page.GetPtr.id ++ " " ++ itoa page.GetPtr.gen ++ " R\n")), ?_, ?_⟩
  · simp only [finishVisualSignature]
    rw [show context.PDFReader.Trailer.Key "Root" = context.root from rfl, h, hp]
    rfl
  · rw [← hl]
    exact linesOf_writeFieldEntries (withPageObjectId (withRootString context) page.GetPtr.id)
      _ ht

theorem finishVisualSignature_notFound (context : SignContext) (buf : String) (n : Nat)
    (err : GoError) (h : foundPages context.root.Keys = true)
    (hp : findPageByNumber (context.root.Key "Pages") n = .error err) :
    finishVisualSignature context buf n = (.error err, withRootString context) := by
  simp only [finishVisualSignature]
  rw [show context.PDFReader.Trailer.Key "Root" = context.root from rfl, h, hp]
  rfl

/-! ## The page locator: what it finds -/

theorem findPageByNumber_error_of_ne_one (pages : Value) (n : Nat) (hn : n ≠ 1) :
    ∃ m, findPageByNumber pages n = .error (pageNotFound m) := by
  refine findPageByNumber.induct
    (fun pages n => n ≠ 1 → ∃ m, findPageByNumber pages n = .error (pageNotFound m))
    (fun kids i n => n ≠ 1 → findInKids kids i n = none)
    ?_ ?_ ?_ ?_ ?_ ?_ ?_ ?_ pages n hn
  · intro pages n hT page hk ih hn
    rw [ih hn] at hk; cases hk
  · intro pages n hT hk _ hn
    exact ⟨n, by rw [findPageByNumber, if_pos hT, hk]⟩
  · intro pages hT hP hn
    exact absurd rfl hn
  · intro pages n hT hP h1 _
    exact ⟨uint32Dec n, by rw [findPageByNumber, if_neg hT, if_pos hP, if_neg h1]⟩
  · intro pages n hT hP _
    exact ⟨n, by rw [findPageByNumber, if_neg hT, if_neg hP]⟩
  · intro kids i n hi page hf ih hn
    obtain ⟨m, hm⟩ := ih hn
    rw [hm] at hf; cases hf
  · intro kids i n hi e hf _ ih2 hn
    rw [findInKids, if_pos hi, hf]; exact ih2 hn
  · intro kids i n hi _
    rw [findInKids, if_neg hi]

theorem findPageByNumber_one (pages : Value) :
    findPageByNumber pages 1 =
      match (pageLeaves pages).head? with
      | some page => .ok page
      | none => .error (pageNotFound 1) := by
  refine findPageByNumber.induct
    (fun pages n => n = 1 → findPageByNumber pages n =
      match (pageLeaves pages).head? with
      | some page => .ok page
      | none => .error (pageNotFound 1))
    (fun kids i n => n = 1 → findInKids kids i n = (leavesOfKids kids i).head?)
    ?_ ?_ ?_ ?_ ?_ ?_ ?_ ?_ pages 1 rfl
  · intro pages n hT page hk ih hn
    rw [findPageByNumber, if_pos hT, pageLeaves, if_pos hT, ← ih hn, hk]
  · intro pages n hT hk ih hn
    rw [findPageByNumber, if_pos hT, pageLeaves, if_pos hT, ← ih hn, hk, hn]
  · intro pages hT hP _
    rw [findPageByNumber, if_neg hT, if_pos hP, if_pos rfl, pageLeaves, if_neg hT, if_pos hP]
    rfl
  · intro pages n hT hP h1 hn
    exact absurd hn h1
  · intro pages n hT hP hn
    rw [findPageByNumber, if_neg hT, if_neg hP, pageLeaves, if_neg hT, if_neg hP, hn]
    rfl
  · intro kids i n hi page hf ih hn
    rw [findInKids, if_pos hi, hf, leavesOfKids, if_pos hi]
    have h := ih hn
    rw [hf] at h
    cases hl : pageLeaves (kids.Index i) with
    | nil => rw [hl] at h; simp at h
    | cons a rest => rw [hl] at h; simp at h; simp [h]
  · intro kids i n hi e hf ih ih2 hn
    rw [findInKids, if_pos hi, hf, leavesOfKids, if_pos hi]
    have h := ih hn
    rw [hf] at h
    cases hl : pageLeaves (kids.Index i) with
    | nil => simpa using ih2 hn
    | cons a rest => rw [hl] at h; simp at h
  · intro kids i n hi _
    rw [findInKids, if_neg hi, leavesOfKids, if_neg hi]
    rfl


theorem samplePage_type (id gen : Nat) : ((samplePage id gen).Key "Type").Name = "Page" := by
  simp [samplePage, Value.Key, Value.lookupKey, Value.Name]

theorem leavesOfKids_pages (ptr : ObjPtr) (kids : List Value)
    (h : ∀ k ∈ kids, (k.Key "Type").Name = "Page") (i : Nat) :
    leavesOfKids (.array ptr kids) i = kids.drop i := by
  have hne : ¬ ("Page" = "Pages") := by decide
  generalize hk : kids.length - i = m
  induction m generalizing i with
  | zero =>
    rw [leavesOfKids, if_neg (by simp only [Value.Len]; omega), List.drop_eq_nil_of_le (by omega)]
  | succ m ih =>
    have hi : i < kids.length := by omega
    rw [leavesOfKids, if_pos (by simpa [Value.Len] using hi), ih (i + 1) (by omega)]
    have hI : (Value.array ptr kids).Index i = kids[i] := by
      simp [Value.Index, List.getD_eq_getElem?_getD, List.getElem?_eq_getElem hi]
    have hT := h kids[i] (List.getElem_mem _)
    rw [hI, pageLeaves, if_neg (by rw [hT]; exact hne), if_pos hT]
    simp

theorem pageLeaves_samplePages (kids : List Value)
    (h : ∀ k ∈ kids, (k.Key "Type").Name = "Page") :
    pageLeaves (samplePages kids) = kids := by
  have hT : ((samplePages kids).Key "Type").Name = "Pages" := by
    simp [samplePages, Value.Key, Value.lookupKey, Value.Name]
  have hK : (samplePages kids).Key "Kids" = .array ⟨2, 0⟩ kids := by
    simp [samplePages, Value.Key, Value.lookupKey]
  rw [pageLeaves, if_pos hT, hK, leavesOfKids_pages _ _ h]
  rfl

theorem samplePages_two_leaves :
    pageLeaves (samplePages [samplePage 4 0, samplePage 5 0]) =
      [samplePage 4 0, samplePage 5 0] := by
  apply pageLeaves_samplePages
  intro k hk
  simp only [List.mem_cons, List.mem_singleton, List.not_mem_nil, or_false] at hk
  rcases hk with rfl | rfl <;> exact samplePage_type _ _

/-- Claim C1, at the two-page document of the spec's scenario: the second leaf in document
order is the page `5 0`, and `findPageByNumber` on ordinal 2 returns the page-not-found
error instead of that leaf. -/
theorem findPageByNumber_two_pages_second :
    (pageLeaves (samplePages [samplePage 4 0, samplePage 5 0]))[1]? = some (samplePage 5 0) ∧
    findPageByNumber (samplePages [samplePage 4 0, samplePage 5 0]) 2 =
      .error (pageNotFound 2) := by
  constructor
  · rw [samplePages_two_leaves]
    rfl
  · simp [findPageByNumber, findInKids, samplePages, samplePage, Value.Key, Value.lookupKey,
      Value.Name, Value.Len, Value.Index]

/-- Claim C2: on a page tree with `k` leaves, an ordinal that is 0 or larger than `k` makes
`findPageByNumber` return a page-not-found error, and so no page. -/
theorem findPageByNumber_out_of_range (pages : Value) (n : Nat)
    (h : n = 0 ∨ (pageLeaves pages).length < n) :
    ∃ m, findPageByNumber pages n = .error (pageNotFound m) := by
  by_cases h1 : n = 1
  · subst h1
    rcases h with h | h
    · exact absurd h (by decide)
    · have hnil : pageLeaves pages = [] := List.length_eq_zero.mp (by omega)
      exact ⟨1, by rw [findPageByNumber_one, hnil]; rfl⟩
  · exact findPageByNumber_error_of_ne_one pages n h1

theorem findPageByNumber_out_of_range_witness :
    (3 = 0 ∨ (pageLeaves (samplePages [samplePage 4 0, samplePage 5 0])).length < 3) ∧
    ∃ m, findPageByNumber (samplePages [samplePage 4 0, samplePage 5 0]) 3 =
      .error (pageNotFound m) :=
  have h : 3 = 0 ∨ (pageLeaves (samplePages [samplePage 4 0, samplePage 5 0])).length < 3 := by
    right
    rw [samplePages_two_leaves]
    decide
  ⟨h, findPageByNumber_out_of_range _ 3 h⟩

/-! ## The annotation builder: outputs -/

theorem startVisualSignature_terminated (env : Collaborators) (context : SignContext)
    (visible : Bool) (rect : Rect) (buf : String) (c : SignContext)
    (h : startVisualSignature env context visible rect = (.ok buf, c)) : Terminated buf := by
  cases visible with
  | true =>
    obtain ⟨_, _, _, _, _, ht, _⟩ := startVisualSignature_visible env context rect buf c h
    exact ht
  | false =>
    obtain ⟨buf', h', ht, _⟩ := startVisualSignature_invisible env context rect
    rw [h'] at h
    simp only [Prod.mk.injEq, Except.ok.injEq] at h
    rw [← h.1]; exact ht

theorem findPageByNumber_samplePages_one (page : Value) (n : Nat)
    (hp : (page.Key "Type").Name = "Page") :
    findPageByNumber (samplePages [page]) n =
      if n = 1 then .ok page else .error (pageNotFound n) := by
  have hne : ¬ ("Page" = "Pages") := by decide
  have hT : ((samplePages [page]).Key "Type").Name = "Pages" := by
    simp [samplePages, Value.Key, Value.lookupKey, Value.Name]
  have hK : (samplePages [page]).Key "Kids" = .array ⟨2, 0⟩ [page] := by
    simp [samplePages, Value.Key, Value.lookupKey]
  rw [findPageByNumber, if_pos hT, hK, findInKids, if_pos (by simp [Value.Len])]
  have hI : (Value.array ⟨2, 0⟩ [page]).Index 0 = page := by simp [Value.Index]
  rw [hI, findPageByNumber, if_neg (by rw [hp]; exact hne), if_pos hp]
  by_cases h1 : n = 1
  · simp [h1]
  · rw [if_neg h1, if_neg h1]
    simp only
    rw [findInKids, if_neg (by simp [Value.Len])]

theorem finishVisualSignature_found_bytes (context : SignContext) (buf : String) (n : Nat)
    (page : Value) (h : foundPages context.root.Keys = true)
    (hp : findPageByNumber (context.root.Key "Pages") n = .ok page) :
    finishVisualSignature context buf n =
      (.ok (writeFieldEntries context
          (buf ++ ("  /P " ++ itoa page.GetPtr.id ++ " " ++ itoa page.GetPtr.gen ++ " R\n"))),
        withPageObjectId (withRootString context) page.GetPtr.id) := by
  simp only [finishVisualSignature]
  rw [show context.PDFReader.Trailer.Key "Root" = context.root from rfl, h, hp]
  rfl

theorem finishVisualSignature_noPages_bytes (context : SignContext) (buf : String) (n : Nat)
    (h : foundPages context.root.Keys = false) :
    finishVisualSignature context buf n =
      (.ok (writeFieldEntries context buf), withRootString context) := by
  simp only [finishVisualSignature]
  rw [show context.PDFReader.Trailer.Key "Root" = context.root from rfl, h]
  rfl

theorem sampleContext_root (pages : Value) (k : Nat) :
    (sampleContext (sampleReader pages) k).root =
      .dict ⟨1, 0⟩ [("Type", .name ⟨1, 0⟩ "Catalog"), ("Pages", pages)] := by
  simp [SignContext.root, sampleContext, sampleReader, Value.Key, Value.lookupKey]

theorem sampleContext_found (pages : Value) (k : Nat) :
    foundPages (sampleContext (sampleReader pages) k).root.Keys = true := by
  rw [sampleContext_root]; simp [Value.Keys, foundPages]

theorem sampleContext_pages (pages : Value) (k : Nat) :
    (sampleContext (sampleReader pages) k).root.Key "Pages" = pages := by
  rw [sampleContext_root]; simp [Value.Key, Value.lookupKey]

theorem createVisualSignature_of_start (env : Collaborators) (context : SignContext)
    (visible : Bool) (pageNumber : Nat) (rect : Rect) (buf : String) (c : SignContext)
    (hs : startVisualSignature env context visible rect = (.ok buf, c)) :
    createVisualSignature env context visible pageNumber rect =
      finishVisualSignature c buf pageNumber := by
  rw [createVisualSignature, hs]

theorem createVisualSignature_of_start_error (env : Collaborators) (context : SignContext)
    (visible : Bool) (pageNumber : Nat) (rect : Rect) (e : GoError) (c : SignContext)
    (hs : startVisualSignature env context visible rect = (.error e, c)) :
    createVisualSignature env context visible pageNumber rect = (.error e, c) := by
  rw [createVisualSignature, hs]

theorem createVisualSignature_invisible_sample (env : Collaborators) (rect : Rect) :
    (createVisualSignature env
        (sampleContext (sampleReader (samplePages [samplePage 4 0])) 0) false 1 rect).1 =
      .ok "<<\n  /Type /Annot\n  /Subtype /Widget\n  /Rect [0 0 0 0]\n /TU (Digital signature field (non-interactive))\n /Alt (This is a digital signature ensuring document integrity and authenticity)\n  /P 4 0 R\n  /F 132\n  /FT /Sig\n  /T (Signature 1)\n  /V 13 0 R\n>>\n" := by
  have hp : findPageByNumber
      ((sampleContext (sampleReader (samplePages [samplePage 4 0])) 0).root.Key "Pages") 1 =
      .ok (samplePage 4 0) := by
    rw [sampleContext_pages, findPageByNumber_samplePages_one _ _ (samplePage_type 4 0)]
    rfl
  have hs : startVisualSignature env
    (sampleContext (sampleReader (samplePages [samplePage 4 0])) 0) false rect =
    (.ok "<<\n  /Type /Annot\n  /Subtype /Widget\n  /Rect [0 0 0 0]\n /TU (Digital signature field (non-interactive))\n /Alt (This is a digital signature ensuring document integrity and authenticity)\n", _) := rfl
  rw [createVisualSignature, hs]
  simp only
  rw [finishVisualSignature_found_bytes _ _ _ _ (sampleContext_found _ _) hp]
  simp only [Except.ok.injEq]
  decide

/-- Claim C3, at the instance of `TestVisualSignature`: a one-page document whose page is
`4 0`, no existing signature, signature value in object 13, `visible = false`, ordinal 1.
The bytes returned are the multi-line dictionary with the `/TU` and `/Alt` entries and
without `/Ff 0`; they differ from the single line that the test expects. -/
theorem createVisualSignature_test_instance (env : Collaborators) (rect : Rect) :
    (createVisualSignature env
        (sampleContext (sampleReader (samplePages [samplePage 4 0])) 0) false 1 rect).1 =
      .ok "<<\n  /Type /Annot\n  /Subtype /Widget\n  /Rect [0 0 0 0]\n /TU (Digital signature field (non-interactive))\n /Alt (This is a digital signature ensuring document integrity and authenticity)\n  /P 4 0 R\n  /F 132\n  /FT /Sig\n  /T (Signature 1)\n  /V 13 0 R\n>>\n" ∧
    (createVisualSignature env
        (sampleContext (sampleReader (samplePages [samplePage 4 0])) 0) false 1 rect).1 ≠
      .ok expected_visual_signature := by
  refine ⟨createVisualSignature_invisible_sample env rect, ?_⟩
  rw [createVisualSignature_invisible_sample env rect]
  simp only [ne_eq, Except.ok.injEq]
  decide

/-- What a successful call returns: the lines of the head, the `/P` line when the root has a
`Pages` key, and the field lines; and the context it leaves. -/
theorem createVisualSignature_ok (env : Collaborators) (context : SignContext)
    (visible : Bool) (pageNumber : Nat) (rect : Rect) (out : String)
    (h : (createVisualSignature env context visible pageNumber rect).1 = .ok out) :
    ∃ buf c, startVisualSignature env context visible rect = (.ok buf, c) ∧ Terminated buf ∧
      ((foundPages c.root.Keys = false ∧
          createVisualSignature env context visible pageNumber rect =
            (.ok out, withRootString c) ∧
          linesOf out = linesOf buf ++ fieldLines c) ∨
        (foundPages c.root.Keys = true ∧ ∃ page,
          findPageByNumber (c.root.Key "Pages") pageNumber = .ok page ∧
          createVisualSignature env context visible pageNumber rect =
            (.ok out, withPageObjectId (withRootString c) page.GetPtr.id) ∧
          linesOf out = linesOf buf ++ [pageLine page.GetPtr] ++ fieldLines c)) := by
  rcases hs : startVisualSignature env context visible rect with ⟨r, c⟩
  cases r with
  | error e =>
    rw [createVisualSignature_of_start_error _ _ _ _ _ _ _ hs] at h
    cases h
  | ok buf =>
    have ht := startVisualSignature_terminated _ _ _ _ _ _ hs
    rw [createVisualSignature_of_start _ _ _ _ _ _ _ hs] at h ⊢
    refine ⟨buf, c, rfl, ht, ?_⟩
    cases hf : foundPages c.root.Keys with
    | false =>
      left
      obtain ⟨out', ho, hl⟩ := finishVisualSignature_noPages c buf pageNumber ht hf
      rw [ho] at h
      simp only [Except.ok.injEq] at h
      subst h
      exact ⟨rfl, ho, hl⟩
    | true =>
      right
      cases hp : findPageByNumber (c.root.Key "Pages") pageNumber with
      | error e =>
        rw [finishVisualSignature_notFound c buf pageNumber e hf hp] at h
        cases h
      | ok page =>
        obtain ⟨out', ho, hl⟩ := finishVisualSignature_found c buf pageNumber page ht hf hp
        rw [ho] at h
        simp only [Except.ok.injEq] at h
        subst h
        exact ⟨rfl, page, rfl, ho, hl⟩

/-- Claim C4, the end-to-end scenario: on a one-page document whose page is `4 0`, with one
existing signature and the signature value in object 13, the invisible call at ordinal 1
succeeds; its output is the dictionary below, each entry on a line of its own, and the flag
value 132 is `AnnotationFlagPrint | AnnotationFlagLocked`. -/
theorem createVisualSignature_invisible_scenario (env : Collaborators) (context : SignContext)
    (rect : Rect) (page : Value)
    (hroot : foundPages context.root.Keys = true)
    (hleaves : pageLeaves (context.root.Key "Pages") = [page])
    (hptr : page.GetPtr = ⟨4, 0⟩)
    (hsig : context.existingSignatures.length = 1)
    (hv : context.SignData.objectId = 13) :
    ∃ out, (createVisualSignature env context false 1 rect).1 = .ok out ∧
      out = "<<\n  /Type /Annot\n  /Subtype /Widget\n  /Rect [0 0 0 0]\n /TU (Digital signature field (non-interactive))\n /Alt (This is a digital signature ensuring document integrity and authenticity)\n  /P 4 0 R\n  /F 132\n  /FT /Sig\n  /T (Signature 2)\n  /V 13 0 R\n>>\n" ∧
      linesOf out =
        ["<<", "  /Type /Annot", "  /Subtype /Widget", "  /Rect [0 0 0 0]",
         " /TU (Digital signature field (non-interactive))",
         " /Alt (This is a digital signature ensuring document integrity and authenticity)",
         "  /P 4 0 R", "  /F 132", "  /FT /Sig", "  /T (Signature 2)", "  /V 13 0 R", ">>"] ∧
      AnnotationFlagPrint ||| AnnotationFlagLocked = 132 := by
  have hp : findPageByNumber (context.root.Key "Pages") 1 = .ok page := by
    rw [findPageByNumber_one, hleaves]; rfl
  have hs : startVisualSignature env context false rect =
      (.ok "<<\n  /Type /Annot\n  /Subtype /Widget\n  /Rect [0 0 0 0]\n /TU (Digital signature field (non-interactive))\n /Alt (This is a digital signature ensuring document integrity and authenticity)\n", context) := rfl
  have ho : (createVisualSignature env context false 1 rect).1 = .ok "<<\n  /Type /Annot\n  /Subtype /Widget\n  /Rect [0 0 0 0]\n /TU (Digital signature field (non-interactive))\n /Alt (This is a digital signature ensuring document integrity and authenticity)\n  /P 4 0 R\n  /F 132\n  /FT /Sig\n  /T (Signature 2)\n  /V 13 0 R\n>>\n" := by
    rw [createVisualSignature_of_start _ _ _ _ _ _ _ hs,
      finishVisualSignature_found_bytes _ _ _ _ hroot hp, writeFieldEntries_eq, hptr, hsig, hv]
    simp only [Except.ok.injEq]
    decide
  exact ⟨_, ho, rfl, by decide, by decide⟩

theorem createVisualSignature_invisible_scenario_witness :
    ∃ out, (createVisualSignature sampleEnv
        (sampleContext (sampleReader (samplePages [samplePage 4 0])) 1) false 1
        ⟨.finite false 0 0, .finite false 0 0, .finite false 0 0, .finite false 0 0⟩).1 =
          .ok out ∧
      out = "<<\n  /Type /Annot\n  /Subtype /Widget\n  /Rect [0 0 0 0]\n /TU (Digital signature field (non-interactive))\n /Alt (This is a digital signature ensuring document integrity and authenticity)\n  /P 4 0 R\n  /F 132\n  /FT /Sig\n  /T (Signature 2)\n  /V 13 0 R\n>>\n" ∧
      linesOf out =
        ["<<", "  /Type /Annot", "  /Subtype /Widget", "  /Rect [0 0 0 0]",
         " /TU (Digital signature field (non-interactive))",
         " /Alt (This is a digital signature ensuring document integrity and authenticity)",
         "  /P 4 0 R", "  /F 132", "  /FT /Sig", "  /T (Signature 2)", "  /V 13 0 R", ">>"] ∧
      AnnotationFlagPrint ||| AnnotationFlagLocked = 132 :=
  createVisualSignature_invisible_scenario sampleEnv
    (sampleContext (sampleReader (samplePages [samplePage 4 0])) 1) _ (samplePage 4 0)
    (sampleContext_found _ _)
    (by rw [sampleContext_pages]
        exact pageLeaves_samplePages _ (fun k hk => by
          rw [List.mem_singleton.mp hk]; exact samplePage_type 4 0))
    rfl (by decide) rfl

theorem filter_invisibleLines_Rect :
    invisibleLines.filter (hasKey "Rect") = ["  /Rect [0 0 0 0]"] := by decide

theorem filter_invisibleLines_AP : invisibleLines.filter (hasKey "AP") = [] := by decide

theorem filter_invisibleLines_P : invisibleLines.filter (hasKey "P") = [] := by decide

theorem filter_invisibleLines_T : invisibleLines.filter (hasKey "T") = [] := by decide

theorem filter_fieldLines_Rect (c : SignContext) :
    (fieldLines c).filter (hasKey "Rect") = [] := by
  simp [hasKey, fieldLines, String.data_append, List.isPrefixOf, List.filter]

theorem filter_fieldLines_AP (c : SignContext) : (fieldLines c).filter (hasKey "AP") = [] := by
  simp [hasKey, fieldLines, String.data_append, List.isPrefixOf, List.filter]

theorem filter_fieldLines_P (c : SignContext) : (fieldLines c).filter (hasKey "P") = [] := by
  simp [hasKey, fieldLines, String.data_append, List.isPrefixOf, List.filter]

theorem filter_fieldLines_T (c : SignContext) :
    (fieldLines c).filter (hasKey "T") =
      ["  /T (Signature " ++ itoa (c.existingSignatures.length + 1) ++ ")"] := by
  simp [hasKey, fieldLines, String.data_append, List.isPrefixOf, List.filter]

theorem hasKey_pageLine (ptr : ObjPtr) :
    hasKey "P" (pageLine ptr) = true ∧ hasKey "AP" (pageLine ptr) = false ∧
      hasKey "Rect" (pageLine ptr) = false ∧ hasKey "T" (pageLine ptr) = false := by
  simp [hasKey, pageLine, String.data_append, List.isPrefixOf]

theorem hasKey_appearanceLine (id : Nat) :
    hasKey "AP" (appearanceLine id) = true ∧ hasKey "P" (appearanceLine id) = false ∧
      hasKey "Rect" (appearanceLine id) = false ∧ hasKey "T" (appearanceLine id) = false := by
  simp [hasKey, appearanceLine, String.data_append, List.isPrefixOf]

theorem hasKey_rectLine (rect : Rect) :
    hasKey "Rect" (rectLine rect) = true ∧ hasKey "P" (rectLine rect) = false ∧
      hasKey "AP" (rectLine rect) = false ∧ hasKey "T" (rectLine rect) = false := by
  simp [hasKey, rectLine, String.data_append, List.isPrefixOf]

theorem filter_visibleLines_AP (rect : Rect) (id : Nat) :
    (visibleLines rect id).filter (hasKey "AP") = [appearanceLine id] := by
  have h1 : hasKey "AP" "<<" = false := by decide
  have h2 : hasKey "AP" "  /Type /Annot" = false := by decide
  have h3 : hasKey "AP" "  /Subtype /Widget" = false := by decide
  simp [visibleLines, List.filter, h1, h2, h3, hasKey_rectLine, hasKey_appearanceLine]

theorem filter_visibleLines_P (rect : Rect) (id : Nat) :
    (visibleLines rect id).filter (hasKey "P") = [] := by
  have h1 : hasKey "P" "<<" = false := by decide
  have h2 : hasKey "P" "  /Type /Annot" = false := by decide
  have h3 : hasKey "P" "  /Subtype /Widget" = false := by decide
  simp [visibleLines, List.filter, h1, h2, h3, hasKey_rectLine, hasKey_appearanceLine]

theorem filter_visibleLines_T (rect : Rect) (id : Nat) :
    (visibleLines rect id).filter (hasKey "T") = [] := by
  have h1 : hasKey "T" "<<" = false := by decide
  have h2 : hasKey "T" "  /Type /Annot" = false := by decide
  have h3 : hasKey "T" "  /Subtype /Widget" = false := by decide
  simp [visibleLines, List.filter, h1, h2, h3, hasKey_rectLine, hasKey_appearanceLine]

theorem filter_visibleLines_Rect (rect : Rect) (id : Nat) :
    (visibleLines rect id).filter (hasKey "Rect") = [rectLine rect] := by
  have h1 : hasKey "Rect" "<<" = false := by decide
  have h2 : hasKey "Rect" "  /Type /Annot" = false := by decide
  have h3 : hasKey "Rect" "  /Subtype /Widget" = false := by decide
  simp [visibleLines, List.filter, h1, h2, h3, hasKey_rectLine, hasKey_appearanceLine]

theorem startVisualSignature_invisible_lines (env : Collaborators) (context : SignContext)
    (rect : Rect) (buf : String) (c : SignContext)
    (hs : startVisualSignature env context false rect = (.ok buf, c)) :
    c = context ∧ linesOf buf = invisibleLines := by
  obtain ⟨buf', h', _, hl⟩ := startVisualSignature_invisible env context rect
  rw [h'] at hs
  simp only [Prod.mk.injEq, Except.ok.injEq] at hs
  exact ⟨hs.2.symm, by rw [← hs.1]; exact hl⟩

/-- Claim C5: with `visible = false` the result does not depend on the rectangle, nor on
the collaborators (neither `createAppearance` nor `addObject` is called); the context is
left as it was except for `RootString` and `pageObjectId`, so the object store is
unchanged; and an output has the single rectangle line `/Rect [0 0 0 0]` and no `/AP`
line. -/
theorem createVisualSignature_invisible_rect_independent (env env' : Collaborators)
    (context : SignContext) (pageNumber : Nat) (r1 r2 : Rect) :
    createVisualSignature env context false pageNumber r1 =
      createVisualSignature env' context false pageNumber r2 ∧
    (∃ rootString pageObjectId,
      (createVisualSignature env context false pageNumber r1).2 =
        { context with
          CatalogData := { context.CatalogData with RootString := rootString }
          VisualSignData := { context.VisualSignData with pageObjectId := pageObjectId } }) ∧
    (createVisualSignature env context false pageNumber r1).2.newObjects = context.newObjects ∧
    ∀ out, (createVisualSignature env context false pageNumber r1).1 = .ok out →
      (linesOf out).filter (hasKey "Rect") = ["  /Rect [0 0 0 0]"] ∧
      (linesOf out).filter (hasKey "AP") = [] := by
  refine ⟨rfl, ?_, ?_, ?_⟩
  · obtain ⟨buf, hs, _, _⟩ := startVisualSignature_invisible env context r1
    rw [createVisualSignature_of_start _ _ _ _ _ _ _ hs]
    cases hf : foundPages context.root.Keys with
    | false =>
      rw [finishVisualSignature_noPages_bytes _ _ _ hf]
      exact ⟨_, context.VisualSignData.pageObjectId, rfl⟩
    | true =>
      cases hp : findPageByNumber (context.root.Key "Pages") pageNumber with
      | error e =>
        rw [finishVisualSignature_notFound _ _ _ e hf hp]
        exact ⟨_, context.VisualSignData.pageObjectId, rfl⟩
      | ok page =>
        rw [finishVisualSignature_found_bytes _ _ _ page hf hp]
        exact ⟨_, page.GetPtr.id, rfl⟩
  · obtain ⟨buf, hs, _, _⟩ := startVisualSignature_invisible env context r1
    rw [createVisualSignature_of_start _ _ _ _ _ _ _ hs]
    cases hf : foundPages context.root.Keys with
    | false => rw [finishVisualSignature_noPages_bytes _ _ _ hf]; rfl
    | true =>
      cases hp : findPageByNumber (context.root.Key "Pages") pageNumber with
      | error e => rw [finishVisualSignature_notFound _ _ _ e hf hp]; rfl
      | ok page => rw [finishVisualSignature_found_bytes _ _ _ page hf hp]; rfl
  · intro out h
    obtain ⟨buf, c, hs, _, hcase⟩ := createVisualSignature_ok _ _ _ _ _ _ h
    obtain ⟨_, hb⟩ := startVisualSignature_invisible_lines _ _ _ _ _ hs
    rcases hcase with ⟨_, _, hl⟩ | ⟨_, page, _, _, hl⟩
    · rw [hl, hb]
      simp [List.filter_append, filter_invisibleLines_Rect, filter_invisibleLines_AP,
        filter_fieldLines_Rect, filter_fieldLines_AP]
    · rw [hl, hb]
      simp [List.filter_append, List.filter_cons, filter_invisibleLines_Rect,
        filter_invisibleLines_AP, filter_fieldLines_Rect, filter_fieldLines_AP, hasKey_pageLine]

/-- Claim C6: with `visible = true`, a successful output has exactly one `/AP` line, the
line `/AP << /N id 0 R >>` where `id` is the identifier that `addObject` returned for the
bytes that `createAppearance(rect)` returned. -/
theorem createVisualSignature_visible_appearance (env : Collaborators) (context : SignContext)
    (pageNumber : Nat) (rect : Rect) (out : String)
    (h : (createVisualSignature env context true pageNumber rect).1 = .ok out) :
    ∃ appearance c1 id c2,
      env.createAppearance context rect = (.ok appearance, c1) ∧
      env.addObject c1 appearance = (.ok id, c2) ∧
      (linesOf out).filter (hasKey "AP") = ["  /AP << /N " ++ itoa id ++ " 0 R >>"] := by
  obtain ⟨buf, c, hs, _, hcase⟩ := createVisualSignature_ok _ _ _ _ _ _ h
  obtain ⟨appearance, c1, id, hca, hao, _, hb⟩ := startVisualSignature_visible _ _ _ _ _ hs
  refine ⟨appearance, c1, id, c, hca, hao, ?_⟩
  rcases hcase with ⟨_, _, hl⟩ | ⟨_, page, _, _, hl⟩
  · rw [hl, hb]
    simp [List.filter_append, filter_visibleLines_AP, filter_fieldLines_AP, appearanceLine]
  · rw [hl, hb]
    simp [List.filter_append, List.filter_cons, filter_visibleLines_AP, filter_fieldLines_AP,
      hasKey_pageLine, appearanceLine]

theorem createVisualSignature_visible_sample :
    (createVisualSignature sampleEnv
      (sampleContext (sampleReader (samplePages [samplePage 4 0])) 0) true 1 sampleRect).1 =
      .ok "<<\n  /Type /Annot\n  /Subtype /Widget\n  /Rect [0.000000 0.000000 100.000000 50.000000]\n  /AP << /N 14 0 R >>\n  /P 4 0 R\n  /F 132\n  /FT /Sig\n  /T (Signature 1)\n  /V 13 0 R\n>>\n" := by
  have hs : startVisualSignature sampleEnv
      (sampleContext (sampleReader (samplePages [samplePage 4 0])) 0) true sampleRect =
      (.ok ("" ++ "<<\n" ++ "  /Type /Annot\n" ++ "  /Subtype /Widget\n" ++
        ("  /Rect [" ++ sampleRect.r0.fmtF ++ " " ++ sampleRect.r1.fmtF ++ " " ++
          sampleRect.r2.fmtF ++ " " ++ sampleRect.r3.fmtF ++ "]\n") ++
        ("  /AP << /N " ++ itoa 14 ++ " 0 R >>\n")),
       { sampleContext (sampleReader (samplePages [samplePage 4 0])) 0 with
         newObjects := ["APP"] }) := rfl
  have hp : findPageByNumber (samplePages [samplePage 4 0]) 1 = .ok (samplePage 4 0) := by
    rw [findPageByNumber_samplePages_one _ _ (samplePage_type 4 0)]; rfl
  rw [createVisualSignature_of_start _ _ _ _ _ _ _ hs,
    finishVisualSignature_found_bytes _ _ _ (samplePage 4 0)
      (by rw [show ∀ c : SignContext, ({ c with newObjects := ["APP"] } : SignContext).root = c.root
            from fun _ => rfl]; exact sampleContext_found _ _)
      (by rw [show ∀ c : SignContext, ({ c with newObjects := ["APP"] } : SignContext).root = c.root
            from fun _ => rfl, sampleContext_pages]; exact hp)]
  simp only [Except.ok.injEq]
  decide

theorem createVisualSignature_visible_appearance_witness :
    ∃ appearance c1 id c2,
      sampleEnv.createAppearance
        (sampleContext (sampleReader (samplePages [samplePage 4 0])) 0) sampleRect =
          (.ok appearance, c1) ∧
      sampleEnv.addObject c1 appearance = (.ok id, c2) ∧
      (linesOf "<<\n  /Type /Annot\n  /Subtype /Widget\n  /Rect [0.000000 0.000000 100.000000 50.000000]\n  /AP << /N 14 0 R >>\n  /P 4 0 R\n  /F 132\n  /FT /Sig\n  /T (Signature 1)\n  /V 13 0 R\n>>\n").filter
        (hasKey "AP") = ["  /AP << /N " ++ itoa id ++ " 0 R >>"] :=
  createVisualSignature_visible_appearance sampleEnv _ 1 sampleRect _
    createVisualSignature_visible_sample

/-- The flag `found_pages` is set exactly when `Pages` is one of the keys of the root. -/
theorem foundPages_iff (keys : List String) : foundPages keys = true ↔ "Pages" ∈ keys := by
  induction keys with
  | nil => simp [foundPages]
  | cons key rest ih =>
    by_cases h : key = "Pages"
    · simp [foundPages, h]
    · have h' : ¬ "Pages" = key := fun e => h e.symm
      simp only [foundPages, if_neg h, ih, List.mem_cons, h', false_or]

theorem foundPages_eq_false_iff (keys : List String) :
    foundPages keys = false ↔ "Pages" ∉ keys := by
  rw [← foundPages_iff]
  cases foundPages keys <;> simp

theorem startVisualSignature_error (env : Collaborators) (context : SignContext)
    (visible : Bool) (rect : Rect) (err : GoError) (c : SignContext) :
    startVisualSignature env context visible rect = (.error err, c) ↔
      visible = true ∧
      ((∃ e, env.createAppearance context rect = (.error e, c) ∧
          err = .wrap "failed to create appearance: " e) ∨
        (∃ appearance c1 e, env.createAppearance context rect = (.ok appearance, c1) ∧
          env.addObject c1 appearance = (.error e, c) ∧
          err = .wrap "failed to add appearance object: " e)) := by
  cases visible with
  | false =>
    obtain ⟨buf, hs, _, _⟩ := startVisualSignature_invisible env context rect
    rw [hs]; simp
  | true =>
    simp only [startVisualSignature, if_true, true_and]
    rcases hca : env.createAppearance context rect with ⟨r1, c1⟩
    cases r1 with
    | error e =>
      simp only [Prod.mk.injEq, Except.error.injEq]
      constructor
      · rintro ⟨h1, h2⟩
        exact Or.inl ⟨e, ⟨rfl, h2⟩, h1.symm⟩
      · rintro (⟨e', ⟨h1, h2⟩, h3⟩ | ⟨_, _, _, ⟨h1, _⟩, _⟩)
        · exact ⟨by rw [h3, h1], h2⟩
        · cases h1
    | ok appearance =>
      simp only
      rcases hao : env.addObject c1 appearance with ⟨r2, c2⟩
      cases r2 with
      | error e =>
        simp only [Prod.mk.injEq, Except.error.injEq]
        constructor
        · rintro ⟨h1, h2⟩
          exact Or.inr ⟨appearance, c1, e, ⟨rfl, rfl⟩, by rw [hao, h2], h1.symm⟩
        · rintro (⟨_, ⟨h1, _⟩, _⟩ | ⟨a', c1', e', ⟨h1, h2⟩, h3, h4⟩)
          · cases h1
          · cases h1; subst h2
            rw [hao] at h3
            simp only [Prod.mk.injEq, Except.error.injEq] at h3
            exact ⟨by rw [h4, h3.1], h3.2⟩
      | ok id =>
        simp only [Prod.mk.injEq, Except.ok.injEq]
        constructor
        · rintro ⟨h1, _⟩; cases h1
        · rintro (⟨_, ⟨h1, _⟩, _⟩ | ⟨a', c1', e', ⟨h1, h2⟩, h3, _⟩)
          · cases h1
          · cases h1; subst h2
            rw [hao] at h3
            simp at h3

/-- Claim C8: `createVisualSignature` returns an error exactly when `visible` is true and
`createAppearance` fails, or `visible` is true and `addObject` fails, or the root has a
`Pages` key (`Pages` is one of `root.Keys()`) and `findPageByNumber` fails for the ordinal.  The errors of the collaborators
are wrapped behind `failed to create appearance: ` and `failed to add appearance object: `,
the error of the locator is returned as it is.  An error result carries no bytes: the
result is either `ok bytes` or `error err`. -/
theorem createVisualSignature_error_iff (env : Collaborators) (context : SignContext)
    (visible : Bool) (pageNumber : Nat) (rect : Rect) :
    ((∃ err, (createVisualSignature env context visible pageNumber rect).1 = .error err) ↔
      (visible = true ∧ ∃ e c, env.createAppearance context rect = (.error e, c)) ∨
      (visible = true ∧ ∃ appearance c1 e c2,
        env.createAppearance context rect = (.ok appearance, c1) ∧
        env.addObject c1 appearance = (.error e, c2)) ∨
      (∃ buf c e, startVisualSignature env context visible rect = (.ok buf, c) ∧
        "Pages" ∈ c.root.Keys ∧
        findPageByNumber (c.root.Key "Pages") pageNumber = .error e)) ∧
    (∀ e c, visible = true → env.createAppearance context rect = (.error e, c) →
      createVisualSignature env context visible pageNumber rect =
        (.error (.wrap "failed to create appearance: " e), c) ∧
      (GoError.wrap "failed to create appearance: " e).Error =
        "failed to create appearance: " ++ e.Error) ∧
    (∀ appearance c1 e c2, visible = true →
      env.createAppearance context rect = (.ok appearance, c1) →
      env.addObject c1 appearance = (.error e, c2) →
      createVisualSignature env context visible pageNumber rect =
        (.error (.wrap "failed to add appearance object: " e), c2) ∧
      (GoError.wrap "failed to add appearance object: " e).Error =
        "failed to add appearance object: " ++ e.Error) ∧
    (∀ buf c e, startVisualSignature env context visible rect = (.ok buf, c) →
      "Pages" ∈ c.root.Keys →
      findPageByNumber (c.root.Key "Pages") pageNumber = .error e →
      (createVisualSignature env context visible pageNumber rect).1 = .error e) ∧
    (visible = false →
      ((∃ err, (createVisualSignature env context visible pageNumber rect).1 = .error err) ↔
        "Pages" ∈ context.root.Keys ∧
        ∃ e, findPageByNumber (context.root.Key "Pages") pageNumber = .error e)) := by
  have hA : ∀ e c, visible = true → env.createAppearance context rect = (.error e, c) →
      createVisualSignature env context visible pageNumber rect =
        (.error (.wrap "failed to create appearance: " e), c) := by
    intro e c hv hca
    exact createVisualSignature_of_start_error _ _ _ _ _ _ _
      ((startVisualSignature_error _ _ _ _ _ _).mpr ⟨hv, Or.inl ⟨e, hca, rfl⟩⟩)
  have hB : ∀ appearance c1 e c2, visible = true →
      env.createAppearance context rect = (.ok appearance, c1) →
      env.addObject c1 appearance = (.error e, c2) →
      createVisualSignature env context visible pageNumber rect =
        (.error (.wrap "failed to add appearance object: " e), c2) := by
    intro appearance c1 e c2 hv hca hao
    exact createVisualSignature_of_start_error _ _ _ _ _ _ _
      ((startVisualSignature_error _ _ _ _ _ _).mpr ⟨hv, Or.inr ⟨appearance, c1, e, hca, hao, rfl⟩⟩)
  have hC : ∀ buf c e, startVisualSignature env context visible rect = (.ok buf, c) →
      "Pages" ∈ c.root.Keys →
      findPageByNumber (c.root.Key "Pages") pageNumber = .error e →
      (createVisualSignature env context visible pageNumber rect).1 = .error e := by
    intro buf c e hs hf hp
    rw [createVisualSignature_of_start _ _ _ _ _ _ _ hs,
      finishVisualSignature_notFound _ _ _ e ((foundPages_iff _).mpr hf) hp]
  have hD : ∀ err, (createVisualSignature env context visible pageNumber rect).1 = .error err →
      (∃ e c, startVisualSignature env context visible rect = (.error e, c)) ∨
      (∃ buf c e, startVisualSignature env context visible rect = (.ok buf, c) ∧
        "Pages" ∈ c.root.Keys ∧
        findPageByNumber (c.root.Key "Pages") pageNumber = .error e) := by
    intro err h
    rcases hs : startVisualSignature env context visible rect with ⟨r, c⟩
    cases r with
    | error e => exact Or.inl ⟨e, c, rfl⟩
    | ok buf =>
      right
      rw [createVisualSignature_of_start _ _ _ _ _ _ _ hs] at h
      cases hf : foundPages c.root.Keys with
      | false =>
        rw [finishVisualSignature_noPages_bytes _ _ _ hf] at h
        cases h
      | true =>
        cases hp : findPageByNumber (c.root.Key "Pages") pageNumber with
        | error e => exact ⟨buf, c, e, rfl, (foundPages_iff _).mp hf, hp⟩
        | ok page =>
          rw [finishVisualSignature_found_bytes _ _ _ page hf hp] at h
          cases h
  refine ⟨⟨?_, ?_⟩, fun e c hv hca => ⟨hA e c hv hca, rfl⟩,
    fun a c1 e c2 hv hca hao => ⟨hB a c1 e c2 hv hca hao, rfl⟩, hC, ?_⟩
  · rintro ⟨err, h⟩
    rcases hD err h with ⟨e, c, hs⟩ | h3
    · obtain ⟨hv, h12⟩ := (startVisualSignature_error _ _ _ _ _ _).mp hs
      rcases h12 with ⟨e', hca, _⟩ | ⟨a, c1, e', hca, hao, _⟩
      · exact Or.inl ⟨hv, e', c, hca⟩
      · exact Or.inr (Or.inl ⟨hv, a, c1, e', c, hca, hao⟩)
    · exact Or.inr (Or.inr h3)
  · rintro (⟨hv, e, c, hca⟩ | ⟨hv, a, c1, e, c2, hca, hao⟩ | ⟨buf, c, e, hs, hf, hp⟩)
    · exact ⟨_, by rw [hA e c hv hca]⟩
    · exact ⟨_, by rw [hB a c1 e c2 hv hca hao]⟩
    · exact ⟨e, hC buf c e hs hf hp⟩
  · intro hv
    subst hv
    obtain ⟨buf, hs, _, _⟩ := startVisualSignature_invisible env context rect
    constructor
    · rintro ⟨err, h⟩
      rcases hD err h with ⟨e, c, hs'⟩ | ⟨buf', c, e, hs', hf, hp⟩
      · rw [hs] at hs'; simp at hs'
      · rw [hs] at hs'
        simp only [Prod.mk.injEq, Except.ok.injEq] at hs'
        obtain ⟨_, rfl⟩ := hs'
        exact ⟨hf, e, hp⟩
    · rintro ⟨hf, e, hp⟩
      exact ⟨e, hC buf context e hs hf hp⟩

/-- Claim C9: let `c` be the context on reaching the page lookup (for `visible = false` it
is the context of the call).  If `Pages` is not one of the keys of its root, the call
succeeds for every page ordinal, the output has no `/P` line and `pageObjectId` stays as it
is in `c`.  If `Pages` is one of the keys of the root and the lookup returns a page, the
call succeeds, the output has exactly one `/P` line, `/P id gen R` with the identifier and
generation of that page, and `pageObjectId` is that identifier. -/
theorem createVisualSignature_page_entry (env : Collaborators) (context : SignContext)
    (visible : Bool) (rect : Rect) (buf : String) (c : SignContext)
    (hs : startVisualSignature env context visible rect = (.ok buf, c)) :
    (visible = false → c = context) ∧
    ("Pages" ∉ c.root.Keys → ∀ pageNumber, ∃ out context',
      createVisualSignature env context visible pageNumber rect = (.ok out, context') ∧
      (linesOf out).filter (hasKey "P") = [] ∧
      context'.VisualSignData.pageObjectId = c.VisualSignData.pageObjectId) ∧
    ("Pages" ∈ c.root.Keys → ∀ pageNumber page,
      findPageByNumber (c.root.Key "Pages") pageNumber = .ok page →
      ∃ out context',
        createVisualSignature env context visible pageNumber rect = (.ok out, context') ∧
        (linesOf out).filter (hasKey "P") =
          ["  /P " ++ itoa page.GetPtr.id ++ " " ++ itoa page.GetPtr.gen ++ " R"] ∧
        context'.VisualSignData.pageObjectId = page.GetPtr.id) := by
  have ht := startVisualSignature_terminated _ _ _ _ _ _ hs
  have hb : (linesOf buf).filter (hasKey "P") = [] := by
    cases visible with
    | false =>
      rw [(startVisualSignature_invisible_lines _ _ _ _ _ hs).2]
      exact filter_invisibleLines_P
    | true =>
      obtain ⟨_, _, id, _, _, _, hl⟩ := startVisualSignature_visible _ _ _ _ _ hs
      rw [hl]; exact filter_visibleLines_P rect id
  refine ⟨?_, ?_, ?_⟩
  · intro hv
    subst hv
    exact (startVisualSignature_invisible_lines _ _ _ _ _ hs).1
  · intro hk pageNumber
    have hf := (foundPages_eq_false_iff _).mpr hk
    obtain ⟨out, ho, hl⟩ := finishVisualSignature_noPages c buf pageNumber ht hf
    refine ⟨out, withRootString c, ?_, ?_, rfl⟩
    · rw [createVisualSignature_of_start _ _ _ _ _ _ _ hs, ho]
    · rw [hl, List.filter_append, hb, filter_fieldLines_P]; rfl
  · intro hk pageNumber page hp
    have hf := (foundPages_iff _).mpr hk
    obtain ⟨out, ho, hl⟩ := finishVisualSignature_found c buf pageNumber page ht hf hp
    refine ⟨out, withPageObjectId (withRootString c) page.GetPtr.id, ?_, ?_, rfl⟩
    · rw [createVisualSignature_of_start _ _ _ _ _ _ _ hs, ho]
    · rw [hl, List.filter_append, List.filter_append, hb, filter_fieldLines_P]
      rw [List.filter_cons, if_pos (hasKey_pageLine _).1]
      rfl

theorem sampleContext_noPages_keys (k : Nat) :
    "Pages" ∉ (sampleContext sampleReaderNoPages k).root.Keys := by
  have h : (sampleContext sampleReaderNoPages k).root =
      .dict ⟨1, 0⟩ [("Type", .name ⟨1, 0⟩ "Catalog")] := by
    simp [SignContext.root, sampleContext, sampleReaderNoPages, Value.Key, Value.lookupKey]
  rw [h]
  decide

theorem sampleContext_pages_mem (pages : Value) (k : Nat) :
    "Pages" ∈ (sampleContext (sampleReader pages) k).root.Keys := by
  rw [sampleContext_root]
  simp [Value.Keys]

theorem createVisualSignature_page_entry_witness :
    ("Pages" ∉ (sampleContext sampleReaderNoPages 0).root.Keys ∧
      ∀ pageNumber, ∃ out context',
        createVisualSignature sampleEnv (sampleContext sampleReaderNoPages 0) false pageNumber
          sampleRect = (.ok out, context') ∧
        (linesOf out).filter (hasKey "P") = [] ∧
        context'.VisualSignData.pageObjectId =
          (sampleContext sampleReaderNoPages 0).VisualSignData.pageObjectId) ∧
    ("Pages" ∈ ({ sampleContext (sampleReader (samplePages [samplePage 4 0])) 0 with
          newObjects := ["APP"] } : SignContext).root.Keys ∧
      findPageByNumber
        (({ sampleContext (sampleReader (samplePages [samplePage 4 0])) 0 with
          newObjects := ["APP"] } : SignContext).root.Key "Pages") 1 = .ok (samplePage 4 0) ∧
      ∃ out context',
        createVisualSignature sampleEnv
          (sampleContext (sampleReader (samplePages [samplePage 4 0])) 0) true 1 sampleRect =
            (.ok out, context') ∧
        (linesOf out).filter (hasKey "P") =
          ["  /P " ++ itoa (samplePage 4 0).GetPtr.id ++ " " ++
            itoa (samplePage 4 0).GetPtr.gen ++ " R"] ∧
        context'.VisualSignData.pageObjectId = (samplePage 4 0).GetPtr.id) :=
  have hk : "Pages" ∈ ({ sampleContext (sampleReader (samplePages [samplePage 4 0])) 0 with
      newObjects := ["APP"] } : SignContext).root.Keys := by
    rw [show ∀ c : SignContext, ({ c with newObjects := ["APP"] } : SignContext).root = c.root
      from fun _ => rfl]
    exact sampleContext_pages_mem _ _
  have hp : findPageByNumber
      (({ sampleContext (sampleReader (samplePages [samplePage 4 0])) 0 with
        newObjects := ["APP"] } : SignContext).root.Key "Pages") 1 = .ok (samplePage 4 0) := by
    rw [show ∀ c : SignContext, ({ c with newObjects := ["APP"] } : SignContext).root = c.root
      from fun _ => rfl, sampleContext_pages,
      findPageByNumber_samplePages_one _ _ (samplePage_type 4 0)]
    rfl
  ⟨⟨sampleContext_noPages_keys 0,
      (createVisualSignature_page_entry sampleEnv (sampleContext sampleReaderNoPages 0) false
        sampleRect _ _ rfl).2.1 (sampleContext_noPages_keys 0)⟩,
    ⟨hk, hp,
      (createVisualSignature_page_entry sampleEnv
        (sampleContext (sampleReader (samplePages [samplePage 4 0])) 0) true sampleRect _
        { sampleContext (sampleReader (samplePages [samplePage 4 0])) 0 with
          newObjects := ["APP"] } rfl).2.2 hk 1 (samplePage 4 0) hp⟩⟩

theorem pdfString_injective : Function.Injective pdfString := by
  intro a b h
  have h2 := congrArg String.data h
  simp only [pdfString, String.data_append] at h2
  have h3 : "(".data ++ a.data = "(".data ++ b.data := List.append_cancel_right h2
  exact String.ext (List.append_cancel_left h3)

theorem titleOf_injective (c1 c2 : SignContext) (h : titleOf c1 = titleOf c2) :
    c1.existingSignatures.length = c2.existingSignatures.length := by
  have h1 := pdfString_injective h
  have h2 := congrArg String.data h1
  simp only [String.data_append] at h2
  have h3 := itoa_injective (String.ext (List.append_cancel_left h2))
  omega

/-- Claim C10: the title line of a successful output is `/T ` followed by the PDF string of
`Signature ` and the decimal rendering of `n + 1`, where `n` is the number of existing
signatures of the context `c` on reaching the field entries; the title determines `n`; and
with one more existing signature the number in the title is larger by exactly one. -/
theorem createVisualSignature_title (env : Collaborators) (context : SignContext)
    (visible : Bool) (pageNumber : Nat) (rect : Rect) (buf : String) (c : SignContext)
    (out : String)
    (hs : startVisualSignature env context visible rect = (.ok buf, c))
    (h : (createVisualSignature env context visible pageNumber rect).1 = .ok out) :
    (linesOf out).filter (hasKey "T") =
      ["  /T " ++ pdfString ("Signature " ++ itoa (c.existingSignatures.length + 1))] ∧
    (∀ c2 : SignContext, titleOf c = titleOf c2 →
      c.existingSignatures.length = c2.existingSignatures.length) ∧
    (∀ c2 : SignContext, c2.existingSignatures.length = c.existingSignatures.length + 1 →
      ∃ k, titleOf c = pdfString ("Signature " ++ itoa k) ∧
        titleOf c2 = pdfString ("Signature " ++ itoa (k + 1)) ∧
        decimalValue (itoa (k + 1)).data = decimalValue (itoa k).data + 1) := by
  refine ⟨?_, fun c2 => titleOf_injective c c2, ?_⟩
  · obtain ⟨buf', c', hs', _, hcase⟩ := createVisualSignature_ok _ _ _ _ _ _ h
    rw [hs] at hs'
    simp only [Prod.mk.injEq, Except.ok.injEq] at hs'
    obtain ⟨rfl, rfl⟩ := hs'
    have hb : (linesOf buf).filter (hasKey "T") = [] := by
      cases visible with
      | false =>
        rw [(startVisualSignature_invisible_lines _ _ _ _ _ hs).2]
        exact filter_invisibleLines_T
      | true =>
        obtain ⟨_, _, id, _, _, _, hl⟩ := startVisualSignature_visible _ _ _ _ _ hs
        rw [hl]; exact filter_visibleLines_T rect id
    have ht : "  /T (Signature " ++ itoa (c.existingSignatures.length + 1) ++ ")" =
        "  /T " ++ pdfString ("Signature " ++ itoa (c.existingSignatures.length + 1)) := by
      apply String.ext
      simp [pdfString, String.data_append]
    rcases hcase with ⟨_, _, hl⟩ | ⟨_, page, _, _, hl⟩
    · rw [hl, List.filter_append, hb, filter_fieldLines_T, ht]; rfl
    · rw [hl, List.filter_append, List.filter_append, hb, filter_fieldLines_T, ht]
      simp [List.filter_cons, hasKey_pageLine]
  · intro c2 h2
    refine ⟨c.existingSignatures.length + 1, rfl, ?_, ?_⟩
    · rw [titleOf, h2]
    · rw [decimalValue_itoa, decimalValue_itoa]

theorem createVisualSignature_title_witness :
    (linesOf "<<\n  /Type /Annot\n  /Subtype /Widget\n  /Rect [0 0 0 0]\n /TU (Digital signature field (non-interactive))\n /Alt (This is a digital signature ensuring document integrity and authenticity)\n  /P 4 0 R\n  /F 132\n  /FT /Sig\n  /T (Signature 1)\n  /V 13 0 R\n>>\n").filter (hasKey "T") =
      ["  /T " ++ pdfString ("Signature " ++ itoa
        ((sampleContext (sampleReader (samplePages [samplePage 4 0])) 0).existingSignatures.length + 1))] ∧
    (∀ c2 : SignContext,
      titleOf (sampleContext (sampleReader (samplePages [samplePage 4 0])) 0) = titleOf c2 →
      (sampleContext (sampleReader (samplePages [samplePage 4 0])) 0).existingSignatures.length =
        c2.existingSignatures.length) ∧
    (∀ c2 : SignContext, c2.existingSignatures.length =
        (sampleContext (sampleReader (samplePages [samplePage 4 0])) 0).existingSignatures.length + 1 →
      ∃ k, titleOf (sampleContext (sampleReader (samplePages [samplePage 4 0])) 0) =
          pdfString ("Signature " ++ itoa k) ∧
        titleOf c2 = pdfString ("Signature " ++ itoa (k + 1)) ∧
        decimalValue (itoa (k + 1)).data = decimalValue (itoa k).data + 1) :=
  createVisualSignature_title sampleEnv
    (sampleContext (sampleReader (samplePages [samplePage 4 0])) 0) false 1 sampleRect _ _ _
    rfl (createVisualSignature_invisible_sample sampleEnv sampleRect)

/-! ## The rectangle of a visible signature -/

theorem toDigitsCore_length_ge (fuel n : Nat) (ds : List Char) :
    ds.length ≤ (Nat.toDigitsCore 10 fuel n ds).length := by
  induction fuel generalizing n ds with
  | zero => simp [Nat.toDigitsCore]
  | succ fuel ih =>
    simp only [Nat.toDigitsCore]
    split
    · simp
    · exact Nat.le_trans (by simp) (ih _ _)

theorem itoa_ne_nil (n : Nat) : (itoa n).data ≠ [] := by
  simp only [itoa, Nat.repr, Nat.toDigits, List.asString, Nat.toDigitsCore]
  intro h
  split at h
  · simp at h
  · have := toDigitsCore_length_ge n (n / 10) [Nat.digitChar (n % 10)]
    rw [h] at this
    simp at this

theorem toDigitsCore_length_le (fuel n k : Nat) (ds : List Char) (hk : 1 ≤ k)
    (hn : n < 10 ^ k) : (Nat.toDigitsCore 10 fuel n ds).length ≤ k + ds.length := by
  induction fuel generalizing n k ds with
  | zero => simp [Nat.toDigitsCore]
  | succ fuel ih =>
    simp only [Nat.toDigitsCore]
    split
    · simp; omega
    · rename_i h0
      have hk2 : 2 ≤ k := by
        by_contra hlt
        have : k = 1 := by omega
        subst this
        omega
      have hn' : n / 10 < 10 ^ (k - 1) := by
        have e : 10 ^ k = 10 ^ (k - 1) * 10 := by
          rw [← Nat.pow_succ]; congr 1; omega
        rw [e] at hn
        exact Nat.div_lt_of_lt_mul (by omega)
      have := ih (n / 10) (k - 1) (Nat.digitChar (n % 10) :: ds) (by omega) hn'
      simp only [List.length_cons] at this
      omega

theorem itoa_length_le (n k : Nat) (hk : 1 ≤ k) (hn : n < 10 ^ k) : (itoa n).data.length ≤ k := by
  simp only [itoa, Nat.repr, Nat.toDigits, List.asString]
  simpa using toDigitsCore_length_le (n + 1) n k [] hk hn

theorem decimalValue_zeros (k : Nat) (ds : List Char) :
    decimalValue (List.replicate k '0' ++ ds) = decimalValue ds := by
  induction k with
  | zero => simp
  | succ k ih =>
    have h0 : digitVal '0' = 0 := by decide
    simp only [decimalValue, List.replicate_succ, List.cons_append, List.foldl_cons,
      Nat.mul_zero, h0, Nat.add_zero] at ih ⊢
    exact ih

theorem takeWhile_point (l rest : List Char) (hl : ∀ c ∈ l, c.isDigit = true) :
    (l ++ '.' :: rest).takeWhile (fun c => c != '.') = l ∧
    (l ++ '.' :: rest).dropWhile (fun c => c != '.') = '.' :: rest := by
  induction l with
  | nil => simp
  | cons c l ih =>
    have hc : c ≠ '.' := by
      intro h
      have := hl c (by simp)
      rw [h] at this
      exact absurd this (by decide)
    obtain ⟨h1, h2⟩ := ih (fun d hd => hl d (List.mem_cons_of_mem _ hd))
    simp [List.takeWhile_cons, List.dropWhile_cons, hc, h1, h2]

theorem readDecimal_body (neg : Bool) (dA F : List Char) (hA : dA ≠ [])
    (hdA : ∀ c ∈ dA, c.isDigit = true) (hF : ∀ c ∈ F, c.isDigit = true) :
    readDecimal (String.mk ((if neg then ['-'] else []) ++ (dA ++ '.' :: F))) =
      some ((if neg then -1 else 1) *
        ((decimalValue dA : ℚ) + (decimalValue F : ℚ) / 10 ^ F.length)) := by
  obtain ⟨h1, h2⟩ := takeWhile_point dA F hdA
  have hhead : (dA ++ '.' :: F).head? ≠ some '-' := by
    cases dA with
    | nil => exact absurd rfl hA
    | cons c l =>
      intro h
      simp only [List.cons_append, List.head?_cons, Option.some.injEq] at h
      have := hdA c (by simp)
      rw [h] at this
      exact absurd this (by decide)
  have hall : ∀ l : List Char, (∀ c ∈ l, c.isDigit = true) → l.all Char.isDigit = true := by
    intro l hl
    simpa [List.all_eq_true] using hl
  cases neg with
  | true =>
    simp only [readDecimal, if_true, List.cons_append, List.nil_append, List.head?_cons,
      List.tail_cons, h1, h2]
    rw [if_pos ⟨hA, hall _ hdA, hall _ hF, by simp⟩]
  | false =>
    simp only [readDecimal, Bool.false_eq_true, if_false, List.nil_append, if_neg hhead, h1, h2,
      List.tail_cons]
    rw [if_pos ⟨hA, hall _ hdA, hall _ hF, by simp⟩]

theorem readDecimal_fmtF (neg : Bool) (mant : Nat) (exp : Int) :
    readDecimal (Float64.finite neg mant exp).fmtF =
      some ((if neg then -1 else 1) * ((Float64.micros mant exp : ℕ) : ℚ) / 1000000) := by
  have hB : Float64.micros mant exp % 1000000 < 10 ^ 6 := Nat.mod_lt _ (by norm_num)
  have hlen := itoa_length_le _ 6 (by norm_num) hB
  have e : (Float64.finite neg mant exp).fmtF =
      String.mk ((if neg then ['-'] else []) ++
        ((itoa (Float64.micros mant exp / 1000000)).data ++ '.' ::
          (List.replicate (6 - (itoa (Float64.micros mant exp % 1000000)).data.length) '0' ++
            (itoa (Float64.micros mant exp % 1000000)).data))) := by
    apply String.ext
    cases neg <;>
      simp only [Float64.fmtF, padZeros, String.data_append, String.length, if_true,
        Bool.false_eq_true, if_false, List.nil_append, List.append_assoc] <;> rfl
  rw [e, readDecimal_body neg _ _ (itoa_ne_nil _) (itoa_isDigit _)
    (by
      intro c hc
      rcases List.mem_append.mp hc with h | h
      · rw [(List.mem_replicate.mp h).2]; decide
      · exact itoa_isDigit _ c h)]
  rw [decimalValue_zeros, decimalValue_itoa, decimalValue_itoa]
  have hl : (List.replicate (6 - (itoa (Float64.micros mant exp % 1000000)).data.length) '0' ++
      (itoa (Float64.micros mant exp % 1000000)).data).length = 6 := by
    simp only [List.length_append, List.length_replicate]; omega
  rw [hl]
  have hdm : (Float64.micros mant exp : ℚ) =
      1000000 * ((Float64.micros mant exp / 1000000 : ℕ) : ℚ) +
        ((Float64.micros mant exp % 1000000 : ℕ) : ℚ) := by
    have := Nat.div_add_mod (Float64.micros mant exp) 1000000
    exact_mod_cast this.symm
  rw [hdm]
  congr 1
  have h6 : (10 : ℚ) ^ 6 = 1000000 := by norm_num
  rw [h6]
  ring

theorem roundHalfEven_close (num den : Nat) (hden : 0 < den) :
    2 * num ≤ 2 * (roundHalfEven num den * den) + den ∧
    2 * (roundHalfEven num den * den) ≤ 2 * num + den := by
  have hdm := Nat.div_add_mod num den
  have hlt := Nat.mod_lt num hden
  simp only [roundHalfEven]
  split
  · rename_i h
    rw [Nat.add_mul, Nat.one_mul, Nat.mul_comm (num / den) den]
    rcases h with h | ⟨h, _⟩ <;> omega
  · rename_i h
    rw [Nat.mul_comm (num / den) den]
    have h1 : ¬ den < 2 * (num % den) := fun hh => h (Or.inl hh)
    omega

theorem roundHalfEven_exact (num den : Nat) (hden : 0 < den) (h : den ∣ num) :
    roundHalfEven num den * den = num := by
  have hm : num % den = 0 := Nat.mod_eq_zero_of_dvd h
  simp only [roundHalfEven, hm]
  rw [if_neg (by omega)]
  exact Nat.div_mul_cancel h

theorem rounded_close (N D r : ℕ) (hD : 0 < D)
    (c1 : 2 * (N * 1000000) ≤ 2 * (r * D) + D) (c2 : 2 * (r * D) ≤ 2 * (N * 1000000) + D) :
    |(r : ℚ) / 1000000 - (N : ℚ) / D| ≤ 1 / 2000000 := by
  have hDq : (0 : ℚ) < (D : ℚ) := by exact_mod_cast hD
  have q1 : (2 : ℚ) * (N * 1000000) ≤ 2 * (r * D) + D := by exact_mod_cast c1
  have q2 : (2 : ℚ) * (r * D) ≤ 2 * (N * 1000000) + D := by exact_mod_cast c2
  have hN : (N : ℚ) = (N : ℚ) / D * D := (div_mul_cancel₀ _ hDq.ne').symm
  generalize (N : ℚ) / D = t at hN
  rw [hN] at q1 q2
  have a1 : (D : ℚ) * (2 * t * 1000000) ≤ D * (2 * r + 1) := by
    calc (D : ℚ) * (2 * t * 1000000) = 2 * (t * D * 1000000) := by ring
      _ ≤ 2 * (r * D) + D := q1
      _ = D * (2 * r + 1) := by ring
  have a2 : (D : ℚ) * (2 * r) ≤ D * (2 * t * 1000000 + 1) := by
    calc (D : ℚ) * (2 * r) = 2 * (r * D) := by ring
      _ ≤ 2 * (t * D * 1000000) + D := q2
      _ = D * (2 * t * 1000000 + 1) := by ring
  have b1 := le_of_mul_le_mul_left a1 hDq
  have b2 := le_of_mul_le_mul_left a2 hDq
  rw [abs_le]
  constructor <;> linarith

theorem millionths_dvd (N D : ℕ) (hD : 0 < D) (neg : Bool) (k : ℤ)
    (h : (if neg = true then (-1 : ℚ) else 1) * (N : ℚ) / D * 1000000 = k) :
    D ∣ N * 1000000 := by
  have hDq : (D : ℚ) ≠ 0 := by exact_mod_cast hD.ne'
  have key : ∃ j : ℤ, ((N * 1000000 : ℕ) : ℤ) = j * (D : ℤ) := by
    cases neg with
    | false =>
      refine ⟨k, ?_⟩
      have : ((N : ℚ) * 1000000) = k * D := by
        rw [← h]; field_simp
      exact_mod_cast this
    | true =>
      refine ⟨-k, ?_⟩
      have : ((N : ℚ) * 1000000) = -k * D := by
        rw [← h]; field_simp
      exact_mod_cast this
  obtain ⟨j, hj⟩ := key
  have : ((D : ℕ) : ℤ) ∣ ((N * 1000000 : ℕ) : ℤ) := ⟨j, by rw [hj]; ring⟩
  exact Int.natCast_dvd_natCast.mp this

/-- What `%f` emits for a finite coordinate: a decimal that reads as the coordinate rounded
to the sixth decimal, within half a millionth of it, and equal to it when the coordinate is
a whole number of millionths. -/
theorem fmtF_reads (x : Float64) (v : ℚ) (hx : x.toRat = some v) :
    ∃ w, readDecimal x.fmtF = some w ∧ |w - v| ≤ 1 / 2000000 ∧
      ((∃ k : ℤ, v * 1000000 = k) → w = v) := by
  cases x with
  | nan => simp [Float64.toRat] at hx
  | inf neg => simp [Float64.toRat] at hx
  | finite neg mant exp =>
    simp only [Float64.toRat, Option.some.injEq] at hx
    have hD : 0 < 2 ^ (-exp).toNat := by positivity
    have hDq : ((2 ^ (-exp).toNat : ℕ) : ℚ) ≠ 0 := by exact_mod_cast hD.ne'
    have hN' : mant * 1000000 * 2 ^ exp.toNat = mant * 2 ^ exp.toNat * 1000000 := by ring
    have hmic : Float64.micros mant exp =
        roundHalfEven (mant * 2 ^ exp.toNat * 1000000) (2 ^ (-exp).toNat) := by
      rw [Float64.micros, hN']
    obtain ⟨c1, c2⟩ := roundHalfEven_close (mant * 2 ^ exp.toNat * 1000000)
      (2 ^ (-exp).toNat) hD
    rw [← hmic] at c1 c2
    have hclose := rounded_close _ _ _ hD c1 c2
    refine ⟨_, readDecimal_fmtF neg mant exp, ?_, ?_⟩
    · rw [← hx]
      cases neg
      · simpa using hclose
      · simp only [if_true]
        rw [show (-1 : ℚ) * (Float64.micros mant exp : ℚ) / 1000000 -
            -1 * ((mant * 2 ^ exp.toNat : ℕ) : ℚ) / ((2 ^ (-exp).toNat : ℕ) : ℚ) =
            -((Float64.micros mant exp : ℚ) / 1000000 -
              ((mant * 2 ^ exp.toNat : ℕ) : ℚ) / ((2 ^ (-exp).toNat : ℕ) : ℚ)) by ring, abs_neg]
        exact hclose
    · rintro ⟨k, hk⟩
      rw [← hx] at hk ⊢
      have hdvd := millionths_dvd _ _ hD neg k hk
      have hex := roundHalfEven_exact _ _ hD hdvd
      rw [← hmic] at hex
      have hq : (Float64.micros mant exp : ℚ) * ((2 ^ (-exp).toNat : ℕ) : ℚ) =
          ((mant * 2 ^ exp.toNat : ℕ) : ℚ) * 1000000 := by exact_mod_cast hex
      have hr : (Float64.micros mant exp : ℚ) / 1000000 =
          ((mant * 2 ^ exp.toNat : ℕ) : ℚ) / ((2 ^ (-exp).toNat : ℕ) : ℚ) := by
        rw [div_eq_div_iff (by norm_num) hDq]
        exact hq
      rw [mul_div_assoc, hr, mul_div_assoc]

theorem createVisualSignature_rect_line (env : Collaborators) (context : SignContext)
    (pageNumber : Nat) (rect : Rect) (out : String)
    (h : (createVisualSignature env context true pageNumber rect).1 = .ok out) :
    (linesOf out).filter (hasKey "Rect") = [rectLine rect] := by
  obtain ⟨buf, c, hs, _, hcase⟩ := createVisualSignature_ok _ _ _ _ _ _ h
  obtain ⟨_, _, id, _, _, _, hb⟩ := startVisualSignature_visible _ _ _ _ _ hs
  rcases hcase with ⟨_, _, hl⟩ | ⟨_, page, _, _, hl⟩
  · rw [hl, hb, List.filter_append, filter_visibleLines_Rect, filter_fieldLines_Rect]
    rfl
  · rw [hl, hb, List.filter_append, List.filter_append, filter_visibleLines_Rect,
      filter_fieldLines_Rect, List.filter_cons, if_neg (by simp [(hasKey_pageLine _).2.2.1])]
    rfl

theorem createVisualSignature_visible_sample_ok (rect : Rect) :
    ∃ out, (createVisualSignature sampleEnv
      (sampleContext (sampleReader (samplePages [samplePage 4 0])) 0) true 1 rect).1 =
        .ok out := by
  have hs : startVisualSignature sampleEnv
      (sampleContext (sampleReader (samplePages [samplePage 4 0])) 0) true rect =
      (.ok ("" ++ "<<\n" ++ "  /Type /Annot\n" ++ "  /Subtype /Widget\n" ++
        ("  /Rect [" ++ rect.r0.fmtF ++ " " ++ rect.r1.fmtF ++ " " ++
          rect.r2.fmtF ++ " " ++ rect.r3.fmtF ++ "]\n") ++
        ("  /AP << /N " ++ itoa 14 ++ " 0 R >>\n")),
       { sampleContext (sampleReader (samplePages [samplePage 4 0])) 0 with
         newObjects := ["APP"] }) := rfl
  have hp : findPageByNumber (samplePages [samplePage 4 0]) 1 = .ok (samplePage 4 0) := by
    rw [findPageByNumber_samplePages_one _ _ (samplePage_type 4 0)]; rfl
  rw [createVisualSignature_of_start _ _ _ _ _ _ _ hs,
    finishVisualSignature_found_bytes _ _ _ (samplePage 4 0)
      (by rw [show ∀ c : SignContext, ({ c with newObjects := ["APP"] } : SignContext).root = c.root
            from fun _ => rfl]; exact sampleContext_found _ _)
      (by rw [show ∀ c : SignContext, ({ c with newObjects := ["APP"] } : SignContext).root = c.root
            from fun _ => rfl, sampleContext_pages]; exact hp)]
  exact ⟨_, rfl⟩

/-- Claim C7 fails at the rectangle from (2^-20, 0) to (1, 1), which is not degenerate: the
visible call succeeds and its `/Rect` line is `/Rect [0.000001 0.000000 1.000000 1.000000]`;
the first number emitted reads as 1/1000000, the first coordinate is 1/1048576. -/
theorem createVisualSignature_rect_not_exact :
    (∃ l b r t, tinyRect.r0.toRat = some l ∧ tinyRect.r1.toRat = some b ∧
      tinyRect.r2.toRat = some r ∧ tinyRect.r3.toRat = some t ∧ l < r ∧ b < t) ∧
    (∃ out, (createVisualSignature sampleEnv
        (sampleContext (sampleReader (samplePages [samplePage 4 0])) 0) true 1 tinyRect).1 =
          .ok out ∧
      (linesOf out).filter (hasKey "Rect") =
        ["  /Rect [" ++ "0.000001" ++ " " ++ "0.000000" ++ " " ++ "1.000000" ++ " " ++
          "1.000000" ++ "]"]) ∧
    tinyRect.r0.fmtF = "0.000001" ∧
    readDecimal "0.000001" = some (1 / 1000000) ∧
    tinyRect.r0.toRat = some (1 / 1048576) ∧
    readDecimal tinyRect.r0.fmtF ≠ tinyRect.r0.toRat := by
  have hf : tinyRect.r0.fmtF = "0.000001" := by decide
  have hr : readDecimal "0.000001" = some (1 / 1000000) := by
    simp [readDecimal, decimalValue, digitVal]
    norm_num
  have hv : tinyRect.r0.toRat = some (1 / 1048576) := by
    simp [tinyRect, Float64.toRat]
  refine ⟨⟨1 / 1048576, 0, 1, 1, hv, by simp [tinyRect, Float64.toRat],
    by simp [tinyRect, Float64.toRat], by simp [tinyRect, Float64.toRat], by norm_num,
    by norm_num⟩, ?_, hf, hr, hv, ?_⟩
  · obtain ⟨out, ho⟩ := createVisualSignature_visible_sample_ok tinyRect
    refine ⟨out, ho, ?_⟩
    rw [createVisualSignature_rect_line _ _ _ _ _ ho]
    decide
  · rw [hf, hr, hv]
    norm_num

/-- Claim C7, amended: in a successful visible call the `/Rect` line holds the four
coordinates in the order `rect[0]`, `rect[1]`, `rect[2]`, `rect[3]`, each formatted with
`%f`; the number emitted for a finite coordinate is within half a millionth of the
coordinate, and is the coordinate itself when that is a whole number of millionths. -/
theorem createVisualSignature_rect_rounded (env : Collaborators) (context : SignContext)
    (pageNumber : Nat) (rect : Rect) (out : String)
    (h : (createVisualSignature env context true pageNumber rect).1 = .ok out) :
    (linesOf out).filter (hasKey "Rect") =
      ["  /Rect [" ++ rect.r0.fmtF ++ " " ++ rect.r1.fmtF ++ " " ++ rect.r2.fmtF ++ " " ++
        rect.r3.fmtF ++ "]"] ∧
    ∀ x ∈ [rect.r0, rect.r1, rect.r2, rect.r3], ∀ v, x.toRat = some v →
      ∃ w, readDecimal x.fmtF = some w ∧ |w - v| ≤ 1 / 2000000 ∧
        ((∃ k : ℤ, v * 1000000 = k) → w = v) :=
  ⟨createVisualSignature_rect_line _ _ _ _ _ h, fun x _ v hx => fmtF_reads x v hx⟩

theorem createVisualSignature_rect_rounded_witness :
    (linesOf "<<\n  /Type /Annot\n  /Subtype /Widget\n  /Rect [0.000000 0.000000 100.000000 50.000000]\n  /AP << /N 14 0 R >>\n  /P 4 0 R\n  /F 132\n  /FT /Sig\n  /T (Signature 1)\n  /V 13 0 R\n>>\n").filter
        (hasKey "Rect") =
      ["  /Rect [" ++ sampleRect.r0.fmtF ++ " " ++ sampleRect.r1.fmtF ++ " " ++
        sampleRect.r2.fmtF ++ " " ++ sampleRect.r3.fmtF ++ "]"] ∧
    ∀ x ∈ [sampleRect.r0, sampleRect.r1, sampleRect.r2, sampleRect.r3], ∀ v,
      x.toRat = some v →
      ∃ w, readDecimal x.fmtF = some w ∧ |w - v| ≤ 1 / 2000000 ∧
        ((∃ k : ℤ, v * 1000000 = k) → w = v) :=
  createVisualSignature_rect_rounded sampleEnv _ 1 sampleRect _
    createVisualSignature_visible_sample

/-! ## The incremental page update: the text of the keys -/

theorem joinAll_append (a b : List String) : joinAll (a ++ b) = joinAll a ++ joinAll b := by
  induction a with
  | nil => simp [joinAll]
  | cons s rest ih => simp [joinAll, ih, String.append_assoc]

theorem foldl_append_text {α : Type} (f : α → String) (l : List α) (buf : String) :
    l.foldl (fun b a => b ++ f a) buf = buf ++ joinAll (l.map f) := by
  induction l generalizing buf with
  | nil => simp [joinAll]
  | cons a rest ih => simp [List.foldl_cons, ih, joinAll, String.append_assoc]

theorem range_map_Index {β : Type} (p : ObjPtr) (elems : List Value) (f : Value → β) :
    (List.range (Value.array p elems).Len).map (fun i => f ((Value.array p elems).Index i)) =
      elems.map f := by
  apply List.ext_getElem
  · simp [Value.Len]
  · intro i h1 h2
    simp only [List.length_map] at h2
    simp [Value.Index, List.getD_eq_getElem?_getD, List.getElem?_eq_getElem h2]

theorem writePageKey_eq (fmt : ScalarFmt) (page : Value) (annot : Nat) (buf key : String) :
    writePageKey fmt page annot buf key = buf ++ pageKeyText fmt page annot key := by
  simp only [pageKeyText, writePageKey]
  split
  · simp
  · split
    · have h := foldl_append_text
        (fun i => "    " ++ itoa ((page.Key key).Index i).GetPtr.id ++ " 0 R\n")
        (List.range (page.Key "Annots").Len)
      have e : ∀ b : String, (List.range (page.Key "Annots").Len).foldl
          (writeAnnotEntry page key) b = b ++ joinAll ((List.range (page.Key "Annots").Len).map
            (fun i => "    " ++ itoa ((page.Key key).Index i).GetPtr.id ++ " 0 R\n")) :=
        fun b => h b
      rw [e, e]
      simp [String.append_assoc]
    · simp

theorem foldl_writePageKey (fmt : ScalarFmt) (page : Value) (annot : Nat) (keys : List String)
    (buf : String) :
    keys.foldl (writePageKey fmt page annot) buf =
      buf ++ joinAll (keys.map (pageKeyText fmt page annot)) := by
  induction keys generalizing buf with
  | nil => simp [joinAll]
  | cons k rest ih =>
    simp [List.foldl_cons, ih, joinAll, writePageKey_eq fmt page annot buf k, String.append_assoc]

/-- The shape of the revised dictionary: the opening marker, the text of every key of the
page in the order of `Keys`, one more `Annots` entry when the value of `Annots` is null,
and the closing marker. -/
theorem writePageUpdate_eq (fmt : ScalarFmt) (page : Value) (annot : Nat) :
    writePageUpdate fmt page annot =
      "<<\n" ++ joinAll (page.Keys.map (pageKeyText fmt page annot)) ++
        (if (page.Key "Annots").IsNull = true then "  /Annots [" ++ itoa annot ++ " 0 R]\n"
          else "") ++ ">>\n" := by
  simp only [writePageUpdate, foldl_writePageKey]
  split <;> simp [String.append_assoc]

theorem pageKeyText_ref (fmt : ScalarFmt) (page : Value) (annot : Nat) (key : String)
    (h : key = "Contents" ∨ key = "Parent") :
    pageKeyText fmt page annot key =
      "  /" ++ key ++ " " ++ itoa (page.Key key).GetPtr.id ++ " 0 R\n" := by
  simp only [pageKeyText, writePageKey, if_pos h]
  simp

theorem pageKeyText_other (fmt : ScalarFmt) (page : Value) (annot : Nat) (key : String)
    (h1 : key ≠ "Contents") (h2 : key ≠ "Parent") (h3 : key ≠ "Annots") :
    pageKeyText fmt page annot key = "  /" ++ key ++ " " ++ (page.Key key).String fmt ++ "\n" := by
  simp only [pageKeyText, writePageKey, if_neg (not_or.mpr ⟨h1, h2⟩), if_neg h3]
  simp

theorem pageKeyText_Annots (fmt : ScalarFmt) (page : Value) (annot : Nat) (p : ObjPtr)
    (elems : List Value) (h : page.Key "Annots" = .array p elems) :
    pageKeyText fmt page annot "Annots" =
      "  /Annots [\n" ++ joinAll (elems.map (fun e => annotRefLine e.GetPtr.id ++ "\n")) ++
        (annotRefLine annot ++ "\n") ++ "  ]\n" := by
  have hk : ¬ ("Annots" = "Contents" ∨ "Annots" = "Parent") := by decide
  simp only [pageKeyText, writePageKey, if_neg hk, if_true]
  have e := foldl_append_text
    (fun i => "    " ++ itoa ((page.Key "Annots").Index i).GetPtr.id ++ " 0 R\n")
    (List.range (page.Key "Annots").Len) ("" ++ "  /Annots [\n")
  have e' : (List.range (page.Key "Annots").Len).foldl (writeAnnotEntry page "Annots")
      ("" ++ "  /Annots [\n") = _ := e
  rw [e', h, range_map_Index p elems
    (fun v => "    " ++ itoa v.GetPtr.id ++ " 0 R\n")]
  have hm : elems.map (fun v => "    " ++ itoa v.GetPtr.id ++ " 0 R\n") =
      elems.map (fun e => annotRefLine e.GetPtr.id ++ "\n") := by
    apply List.map_congr_left
    intro v _
    apply String.ext
    simp [annotRefLine, String.data_append]
  rw [hm]
  apply String.ext
  simp [annotRefLine, String.data_append]

/-! ## The incremental page update: claims -/

theorem Terminated.append2 (a b : String) (ha : Terminated a) (hb : Terminated b) :
    Terminated (a ++ b) := by
  rcases hb with hb | ⟨l, hl⟩
  · have : a ++ b = a := by apply String.ext; simp [String.data_append, hb]
    rw [this]; exact ha
  · exact Or.inr ⟨a.data ++ l, by simp [String.data_append, hl]⟩

theorem joinAll_lines (l : List String) (h : ∀ s ∈ l, '\n' ∉ s.data) :
    Terminated (joinAll (l.map (fun s => s ++ "\n"))) ∧
    linesOf (joinAll (l.map (fun s => s ++ "\n"))) = l := by
  induction l with
  | nil => exact ⟨Or.inl rfl, rfl⟩
  | cons s rest ih =>
    obtain ⟨ht, hl⟩ := ih (fun x hx => h x (List.mem_cons_of_mem _ hx))
    simp only [List.map_cons, joinAll]
    refine ⟨Terminated.append2 _ _ (Terminated.snoc s) ht, ?_⟩
    rw [linesOf_append _ _ (Terminated.snoc s), linesOf_single _ (h s (List.mem_cons_self _ _)),
      hl]
    rfl

theorem annotRefLine_no_newline (id : Nat) : '\n' ∉ (annotRefLine id).data := by
  simp [annotRefLine, String.data_append, itoa_no_newline]

/-- The lines of the `Annots` array that is written for existing entries with the
identifiers `ids` and the new annotation `annot`. -/
theorem annotsBlock_lines (ids : List Nat) (annot : Nat) :
    linesOf ("  /Annots [\n" ++ joinAll (ids.map (fun id => annotRefLine id ++ "\n")) ++
        (annotRefLine annot ++ "\n") ++ "  ]\n") =
      "  /Annots [" :: (ids.map annotRefLine ++ [annotRefLine annot, "  ]"]) := by
  have hj := joinAll_lines (ids.map annotRefLine) (by
    intro s hs
    obtain ⟨id, _, rfl⟩ := List.mem_map.mp hs
    exact annotRefLine_no_newline id)
  rw [List.map_map] at hj
  have hm : (fun s => s ++ "\n") ∘ annotRefLine = fun id => annotRefLine id ++ "\n" := rfl
  rw [hm] at hj
  obtain ⟨ht, hl⟩ := hj
  have h1 : Terminated "  /Annots [\n" := Terminated.snoc "  /Annots ["
  have h2 := Terminated.append2 _ _ h1 ht
  have h3 : Terminated ("  /Annots [\n" ++ joinAll (ids.map (fun id => annotRefLine id ++ "\n")) ++
      (annotRefLine annot ++ "\n")) := Terminated.write _ _
  rw [linesOf_append _ _ h3, linesOf_write _ _ h2 (annotRefLine_no_newline annot),
    linesOf_append _ _ h1, hl]
  have e1 : linesOf "  /Annots [\n" = ["  /Annots ["] := by decide
  have e2 : linesOf "  ]\n" = ["  ]"] := by decide
  rw [e1, e2]
  simp

theorem createIncPageUpdate_of_page (fmt : ScalarFmt) (context : SignContext)
    (pageNumber annot : Nat) (page : Value)
    (hp : findPageByNumber (context.root.Key "Pages") pageNumber = .ok page) :
    createIncPageUpdate fmt context pageNumber annot = .ok (writePageUpdate fmt page annot) := by
  simp only [createIncPageUpdate]
  rw [show context.PDFReader.Trailer.Key "Root" = context.root from rfl, hp]

theorem createIncPageUpdate_of_error (fmt : ScalarFmt) (context : SignContext)
    (pageNumber annot : Nat) (err : GoError)
    (hp : findPageByNumber (context.root.Key "Pages") pageNumber = .error err) :
    createIncPageUpdate fmt context pageNumber annot = .error err := by
  simp only [createIncPageUpdate]
  rw [show context.PDFReader.Trailer.Key "Root" = context.root from rfl, hp]

theorem Key_isNull_of_not_mem (v : Value) (key : String) (h : key ∉ v.Keys) :
    (v.Key key).IsNull = true := by
  have hl : ∀ (p : ObjPtr) (entries : List (String × Value)),
      key ∉ entries.map Prod.fst → (Value.lookupKey p entries key).IsNull = true := by
    intro p entries
    induction entries with
    | nil => intro _; rfl
    | cons e rest ih =>
      obtain ⟨k, x⟩ := e
      intro hk
      simp only [List.map_cons, List.mem_cons, not_or] at hk
      have hne : ¬ k = key := fun h' => hk.1 h'.symm
      simp only [Value.lookupKey, if_neg hne]
      exact ih hk.2
  cases v <;> first | rfl | exact hl _ _ h

/-- Claim C11: for a page whose `Annots` value is an array with the entries `elems`, the
`Annots` array written by `createIncPageUpdate` is the block below: one reference line
`id 0 R` for every existing entry, in the original order, then the line of `annot` as the
last element; it stands in the output where the key `Annots` stands among the keys. -/
theorem createIncPageUpdate_annots (fmt : ScalarFmt) (context : SignContext)
    (pageNumber annot : Nat) (page : Value) (p : ObjPtr) (elems : List Value)
    (ks1 ks2 : List String)
    (hp : findPageByNumber (context.root.Key "Pages") pageNumber = .ok page)
    (ha : page.Key "Annots" = .array p elems)
    (hk : page.Keys = ks1 ++ "Annots" :: ks2) :
    createIncPageUpdate fmt context pageNumber annot =
      .ok ("<<\n" ++ joinAll (ks1.map (pageKeyText fmt page annot)) ++
        ("  /Annots [\n" ++
          joinAll ((elems.map (fun e => e.GetPtr.id)).map (fun id => annotRefLine id ++ "\n")) ++
          (annotRefLine annot ++ "\n") ++ "  ]\n") ++
        joinAll (ks2.map (pageKeyText fmt page annot)) ++ ">>\n") ∧
    linesOf ("  /Annots [\n" ++
        joinAll ((elems.map (fun e => e.GetPtr.id)).map (fun id => annotRefLine id ++ "\n")) ++
        (annotRefLine annot ++ "\n") ++ "  ]\n") =
      "  /Annots [" ::
        ((elems.map (fun e => "    " ++ itoa e.GetPtr.id ++ " 0 R")) ++
          ["    " ++ itoa annot ++ " 0 R", "  ]"]) ∧
    ((elems.map (fun e => "    " ++ itoa e.GetPtr.id ++ " 0 R")) ++
      ["    " ++ itoa annot ++ " 0 R"]).length = elems.length + 1 := by
  refine ⟨?_, ?_, by simp⟩
  · rw [createIncPageUpdate_of_page _ _ _ _ _ hp, writePageUpdate_eq, hk, ha]
    have hn : (Value.array p elems).IsNull = false := rfl
    simp only [hn, Bool.false_eq_true, if_false, List.map_append, List.map_cons, joinAll_append,
      joinAll, pageKeyText_Annots fmt page annot p elems ha, List.map_map]
    congr 1
    apply String.ext
    simp [String.data_append, Function.comp_def]
  · rw [annotsBlock_lines, List.map_map]
    rfl

theorem sampleFullPage_type : (sampleFullPage.Key "Type").Name = "Page" := by
  simp [sampleFullPage, Value.Key, Value.lookupKey, Value.Name]

theorem sample_lookup (page : Value) (k : Nat) (hT : (page.Key "Type").Name = "Page") :
    findPageByNumber ((sampleContext (sampleReader (samplePages [page])) k).root.Key "Pages") 1 =
      .ok page := by
  rw [sampleContext_pages, findPageByNumber_samplePages_one _ _ hT]
  rfl

theorem createIncPageUpdate_annots_witness :
    createIncPageUpdate sampleFmt
        (sampleContext (sampleReader (samplePages [sampleFullPage])) 0) 1 15 =
      .ok ("<<\n" ++ joinAll (([] : List String).map (pageKeyText sampleFmt sampleFullPage 15)) ++
        ("  /Annots [\n" ++
          joinAll ((([Value.dict ⟨8, 0⟩ [], Value.dict ⟨9, 1⟩ []] : List Value).map
            (fun e => e.GetPtr.id)).map (fun id => annotRefLine id ++ "\n")) ++
          (annotRefLine 15 ++ "\n") ++ "  ]\n") ++
        joinAll (["Contents", "MediaBox", "Parent", "Resources", "Type"].map
          (pageKeyText sampleFmt sampleFullPage 15)) ++ ">>\n") ∧
    linesOf ("  /Annots [\n" ++
        joinAll ((([Value.dict ⟨8, 0⟩ [], Value.dict ⟨9, 1⟩ []] : List Value).map
          (fun e => e.GetPtr.id)).map (fun id => annotRefLine id ++ "\n")) ++
        (annotRefLine 15 ++ "\n") ++ "  ]\n") =
      "  /Annots [" ::
        ((([Value.dict ⟨8, 0⟩ [], Value.dict ⟨9, 1⟩ []] : List Value).map
            (fun e => "    " ++ itoa e.GetPtr.id ++ " 0 R")) ++
          ["    " ++ itoa 15 ++ " 0 R", "  ]"]) ∧
    ((([Value.dict ⟨8, 0⟩ [], Value.dict ⟨9, 1⟩ []] : List Value).map
        (fun e => "    " ++ itoa e.GetPtr.id ++ " 0 R")) ++
      ["    " ++ itoa 15 ++ " 0 R"]).length =
      ([Value.dict ⟨8, 0⟩ [], Value.dict ⟨9, 1⟩ []] : List Value).length + 1 :=
  createIncPageUpdate_annots sampleFmt _ 1 15 sampleFullPage ⟨4, 0⟩ _ [] _
    (sample_lookup _ _ sampleFullPage_type)
    (by simp [sampleFullPage, Value.Key, Value.lookupKey])
    rfl

theorem sampleFullPage_output (fmt : ScalarFmt) :
    createIncPageUpdate fmt (sampleContext (sampleReader (samplePages [sampleFullPage])) 0) 1 15 =
      .ok "<<\n  /Annots [\n    8 0 R\n    9 0 R\n    15 0 R\n  ]\n  /Contents 6 0 R\n  /MediaBox [0 0 612 792]\n  /Parent 2 0 R\n  /Resources <</Font <</F1 7 0 R>>>>\n  /Type /Page\n>>\n" := by
  rw [createIncPageUpdate_of_page _ _ _ _ _ (sample_lookup _ _ sampleFullPage_type),
    writePageUpdate_eq]
  have hk : sampleFullPage.Keys =
      ["Annots", "Contents", "MediaBox", "Parent", "Resources", "Type"] := rfl
  have ha : sampleFullPage.Key "Annots" =
      .array ⟨4, 0⟩ [.dict ⟨8, 0⟩ [], .dict ⟨9, 1⟩ []] := by
    simp [sampleFullPage, Value.Key, Value.lookupKey]
  rw [hk, ha]
  simp only [List.map_cons, List.map_nil, joinAll,
    pageKeyText_Annots fmt sampleFullPage 15 _ _ ha,
    pageKeyText_ref fmt sampleFullPage 15 "Contents" (Or.inl rfl),
    pageKeyText_ref fmt sampleFullPage 15 "Parent" (Or.inr rfl),
    pageKeyText_other fmt sampleFullPage 15 "MediaBox" (by decide) (by decide) (by decide),
    pageKeyText_other fmt sampleFullPage 15 "Resources" (by decide) (by decide) (by decide),
    pageKeyText_other fmt sampleFullPage 15 "Type" (by decide) (by decide) (by decide)]
  have h1 : (sampleFullPage.Key "MediaBox").String fmt = "[0 0 612 792]" := by
    simp [sampleFullPage, Value.Key, Value.lookupKey, Value.String, Value.fmtArray,
      Value.GetPtr, itoaInt]
    decide
  have h2 : (sampleFullPage.Key "Resources").String fmt = "<</Font <</F1 7 0 R>>>>" := by
    simp [sampleFullPage, Value.Key, Value.lookupKey, Value.String, Value.fmtDict,
      Value.GetPtr, refText]
    decide
  have h3 : (sampleFullPage.Key "Type").String fmt = "/Page" := by
    simp [sampleFullPage, Value.Key, Value.lookupKey, Value.String]
  have h4 : (sampleFullPage.Key "Contents").GetPtr.id = 6 := by
    simp [sampleFullPage, Value.Key, Value.lookupKey, Value.GetPtr]
  have h5 : (sampleFullPage.Key "Parent").GetPtr.id = 2 := by
    simp [sampleFullPage, Value.Key, Value.lookupKey, Value.GetPtr]
  rw [h1, h2, h3, h4, h5]
  simp only [Value.IsNull, Bool.false_eq_true, if_false, Value.GetPtr, Except.ok.injEq]
  decide

theorem directContentsPage_type : (directContentsPage.Key "Type").Name = "Page" := by
  simp [directContentsPage, Value.Key, Value.lookupKey, Value.Name]

theorem nullAnnotsPage_type : (nullAnnotsPage.Key "Type").Name = "Page" := by
  simp [nullAnnotsPage, Value.Key, Value.lookupKey, Value.Name]

theorem directContentsPage_output (fmt : ScalarFmt) :
    createIncPageUpdate fmt
        (sampleContext (sampleReader (samplePages [directContentsPage])) 0) 1 15 =
      .ok "<<\n  /Contents 4 0 R\n  /Type /Page\n  /Annots [15 0 R]\n>>\n" := by
  rw [createIncPageUpdate_of_page _ _ _ _ _ (sample_lookup _ _ directContentsPage_type),
    writePageUpdate_eq]
  have hk : directContentsPage.Keys = ["Contents", "Type"] := rfl
  have hn : (directContentsPage.Key "Annots").IsNull = true :=
    Key_isNull_of_not_mem _ _ (by rw [hk]; decide)
  rw [hk, hn]
  simp only [List.map_cons, List.map_nil, joinAll, if_true,
    pageKeyText_ref fmt directContentsPage 15 "Contents" (Or.inl rfl),
    pageKeyText_other fmt directContentsPage 15 "Type" (by decide) (by decide) (by decide)]
  have h3 : (directContentsPage.Key "Type").String fmt = "/Page" := by
    simp [directContentsPage, Value.Key, Value.lookupKey, Value.String]
  have h4 : (directContentsPage.Key "Contents").GetPtr.id = 4 := by
    simp [directContentsPage, Value.Key, Value.lookupKey, Value.GetPtr]
  rw [h3, h4]
  simp only [Except.ok.injEq]
  decide

/-- Claim C12, at a page whose `Contents` is a direct array: the value of `Contents` is not
an indirect reference (its pointer is the pointer of the page) and its text is
`[6 0 R 7 0 R]`, yet `createIncPageUpdate` writes `/Contents 4 0 R`, a reference to the page
itself.  For the keys other than `Contents`, `Parent` and `Annots` the text of the value is
written unchanged. -/
theorem createIncPageUpdate_direct_contents (fmt : ScalarFmt) :
    (∀ (page : Value) (annot : Nat) (key : String),
      key ≠ "Contents" → key ≠ "Parent" → key ≠ "Annots" →
      pageKeyText fmt page annot key =
        "  /" ++ key ++ " " ++ (page.Key key).String fmt ++ "\n") ∧
    (directContentsPage.Key "Contents").GetPtr = directContentsPage.GetPtr ∧
    (directContentsPage.Key "Contents").String fmt = "[6 0 R 7 0 R]" ∧
    createIncPageUpdate fmt
        (sampleContext (sampleReader (samplePages [directContentsPage])) 0) 1 15 =
      .ok "<<\n  /Contents 4 0 R\n  /Type /Page\n  /Annots [15 0 R]\n>>\n" ∧
    linesOf "<<\n  /Contents 4 0 R\n  /Type /Page\n  /Annots [15 0 R]\n>>\n" =
      ["<<", "  /Contents 4 0 R", "  /Type /Page", "  /Annots [15 0 R]", ">>"] ∧
    "  /Contents [6 0 R 7 0 R]" ∉
      linesOf "<<\n  /Contents 4 0 R\n  /Type /Page\n  /Annots [15 0 R]\n>>\n" := by
  refine ⟨fun page annot key h1 h2 h3 => pageKeyText_other fmt page annot key h1 h2 h3,
    rfl, ?_, directContentsPage_output fmt, by decide, by decide⟩
  simp [directContentsPage, Value.Key, Value.lookupKey, Value.String, Value.fmtArray,
    Value.GetPtr, refText]
  decide

/-- Claim C13, at a page whose `Resources` is the indirect reference `5 0 R`: the pointer of
the value is `5 0`, not the pointer `4 0` of the page, yet `createIncPageUpdate` writes the
text of the resolved dictionary, `/Resources <</Font <</F1 7 0 R>>>>`, and no line
`/Resources 5 0 R`.  Only the keys named `Contents` and `Parent` are written as
references. -/
theorem createIncPageUpdate_resources_reference (fmt : ScalarFmt) :
    (sampleFullPage.Key "Resources").GetPtr = ⟨5, 0⟩ ∧
    sampleFullPage.GetPtr = ⟨4, 0⟩ ∧
    createIncPageUpdate fmt
        (sampleContext (sampleReader (samplePages [sampleFullPage])) 0) 1 15 =
      .ok "<<\n  /Annots [\n    8 0 R\n    9 0 R\n    15 0 R\n  ]\n  /Contents 6 0 R\n  /MediaBox [0 0 612 792]\n  /Parent 2 0 R\n  /Resources <</Font <</F1 7 0 R>>>>\n  /Type /Page\n>>\n" ∧
    (linesOf "<<\n  /Annots [\n    8 0 R\n    9 0 R\n    15 0 R\n  ]\n  /Contents 6 0 R\n  /MediaBox [0 0 612 792]\n  /Parent 2 0 R\n  /Resources <</Font <</F1 7 0 R>>>>\n  /Type /Page\n>>\n").filter
        (hasKey "Resources") = ["  /Resources <</Font <</F1 7 0 R>>>>"] ∧
    "  /Resources <</Font <</F1 7 0 R>>>>" ≠ "  /Resources 5 0 R" := by
  refine ⟨?_, rfl, sampleFullPage_output fmt, by decide, by decide⟩
  simp [sampleFullPage, Value.Key, Value.lookupKey, Value.GetPtr]

theorem nullAnnotsPage_output (fmt : ScalarFmt) :
    createIncPageUpdate fmt
        (sampleContext (sampleReader (samplePages [nullAnnotsPage])) 0) 1 15 =
      .ok "<<\n  /Annots [\n    15 0 R\n  ]\n  /Type /Page\n  /Annots [15 0 R]\n>>\n" := by
  rw [createIncPageUpdate_of_page _ _ _ _ _ (sample_lookup _ _ nullAnnotsPage_type),
    writePageUpdate_eq]
  have hk : nullAnnotsPage.Keys = ["Annots", "Type"] := rfl
  have ha : nullAnnotsPage.Key "Annots" = .null ⟨4, 0⟩ := by
    simp [nullAnnotsPage, Value.Key, Value.lookupKey]
  have hA : pageKeyText fmt nullAnnotsPage 15 "Annots" =
      "  /Annots [\n" ++ ("    " ++ itoa 15 ++ " 0 R\n") ++ "  ]\n" := by
    have hne : ¬ ("Annots" = "Contents" ∨ "Annots" = "Parent") := by decide
    simp only [pageKeyText, writePageKey, if_neg hne, if_true, ha, Value.Len, List.range_zero,
      List.foldl_nil]
    simp
  rw [hk, ha]
  simp only [List.map_cons, List.map_nil, joinAll, hA, Value.IsNull, if_true,
    pageKeyText_other fmt nullAnnotsPage 15 "Type" (by decide) (by decide) (by decide)]
  have h3 : (nullAnnotsPage.Key "Type").String fmt = "/Page" := by
    simp [nullAnnotsPage, Value.Key, Value.lookupKey, Value.String]
  rw [h3]
  simp only [Except.ok.injEq]
  decide

/-- Claim C17, at a page with the entry `/Annots null`: the keys of the page are `Annots`
and `Type`, each once, and the output of `createIncPageUpdate` has two `Annots` entries, the
array written for the key and the one added because the value is null.  In general the
output is the text of every key in the order of `Keys`, then the added `Annots` entry when
the value of `Annots` is null. -/
theorem createIncPageUpdate_null_annots (fmt : ScalarFmt) :
    (∀ (page : Value) (annot : Nat), writePageUpdate fmt page annot =
      "<<\n" ++ joinAll (page.Keys.map (pageKeyText fmt page annot)) ++
        (if (page.Key "Annots").IsNull = true then "  /Annots [" ++ itoa annot ++ " 0 R]\n"
          else "") ++ ">>\n") ∧
    nullAnnotsPage.Keys = ["Annots", "Type"] ∧
    createIncPageUpdate fmt
        (sampleContext (sampleReader (samplePages [nullAnnotsPage])) 0) 1 15 =
      .ok "<<\n  /Annots [\n    15 0 R\n  ]\n  /Type /Page\n  /Annots [15 0 R]\n>>\n" ∧
    (linesOf "<<\n  /Annots [\n    15 0 R\n  ]\n  /Type /Page\n  /Annots [15 0 R]\n>>\n").filter
        (hasKey "Annots") = ["  /Annots [", "  /Annots [15 0 R]"] :=
  ⟨fun page annot => writePageUpdate_eq fmt page annot, rfl, nullAnnotsPage_output fmt,
    by decide⟩

theorem findPageByNumber_other (pages : Value) (n : Nat)
    (h1 : (pages.Key "Type").Name ≠ "Pages") (h2 : (pages.Key "Type").Name ≠ "Page") :
    findPageByNumber pages n = .error (pageNotFound n) := by
  rw [findPageByNumber, if_neg h1, if_neg h2]

theorem Name_of_isNull (v : Value) (h : v.IsNull = true) : v.Name = "" := by
  cases v <;> first | rfl | simp [Value.IsNull] at h

theorem findPageByNumber_of_isNull (pages : Value) (n : Nat) (h : pages.IsNull = true) :
    findPageByNumber pages n = .error (pageNotFound n) := by
  have hk : (pages.Key "Type").Name = "" := by
    cases pages <;> first | rfl | simp [Value.IsNull] at h
  exact findPageByNumber_other pages n (by rw [hk]; decide) (by rw [hk]; decide)

/-- Claim C14: for a page without an `Annots` key the output of `createIncPageUpdate` is
the opening marker, the text of the original keys in their order, then the entry
`/Annots [annot 0 R]` and the closing marker; none of the original keys is `Annots`, each
of them is written as a reference or with the text of its value. -/
theorem createIncPageUpdate_no_annots (fmt : ScalarFmt) (context : SignContext)
    (pageNumber annot : Nat) (page : Value)
    (hp : findPageByNumber (context.root.Key "Pages") pageNumber = .ok page)
    (hk : "Annots" ∉ page.Keys) :
    createIncPageUpdate fmt context pageNumber annot =
      .ok ("<<\n" ++ joinAll (page.Keys.map (pageKeyText fmt page annot)) ++
        ("  /Annots [" ++ itoa annot ++ " 0 R]\n") ++ ">>\n") ∧
    ∀ key ∈ page.Keys, key ≠ "Annots" ∧
      (pageKeyText fmt page annot key =
          "  /" ++ key ++ " " ++ itoa (page.Key key).GetPtr.id ++ " 0 R\n" ∨
        pageKeyText fmt page annot key =
          "  /" ++ key ++ " " ++ (page.Key key).String fmt ++ "\n") := by
  constructor
  · rw [createIncPageUpdate_of_page _ _ _ _ _ hp, writePageUpdate_eq,
      Key_isNull_of_not_mem _ _ hk, if_pos rfl]
  · intro key hmem
    have hne : key ≠ "Annots" := fun h => hk (h ▸ hmem)
    refine ⟨hne, ?_⟩
    by_cases h : key = "Contents" ∨ key = "Parent"
    · exact Or.inl (pageKeyText_ref fmt page annot key h)
    · exact Or.inr (pageKeyText_other fmt page annot key (fun h' => h (Or.inl h'))
        (fun h' => h (Or.inr h')) hne)

theorem createIncPageUpdate_no_annots_witness :
    createIncPageUpdate sampleFmt
        (sampleContext (sampleReader (samplePages [directContentsPage])) 0) 1 15 =
      .ok ("<<\n" ++ joinAll (directContentsPage.Keys.map
          (pageKeyText sampleFmt directContentsPage 15)) ++
        ("  /Annots [" ++ itoa 15 ++ " 0 R]\n") ++ ">>\n") ∧
    ∀ key ∈ directContentsPage.Keys, key ≠ "Annots" ∧
      (pageKeyText sampleFmt directContentsPage 15 key =
          "  /" ++ key ++ " " ++ itoa (directContentsPage.Key key).GetPtr.id ++ " 0 R\n" ∨
        pageKeyText sampleFmt directContentsPage 15 key =
          "  /" ++ key ++ " " ++ (directContentsPage.Key key).String sampleFmt ++ "\n") :=
  createIncPageUpdate_no_annots sampleFmt _ 1 15 directContentsPage
    (sample_lookup _ _ directContentsPage_type) (by decide)

/-- Claim C15: `createIncPageUpdate` returns an error exactly when `findPageByNumber` fails
on the `Pages` entry of the root, and the error is that of the locator; a root without a
`Pages` key is such a case; an error has no bytes (the result is `ok bytes` or
`error err`).  Otherwise it returns a buffer that starts with `<<` and a line feed and ends
with `>>` and a line feed. -/
theorem createIncPageUpdate_error_iff (fmt : ScalarFmt) (context : SignContext)
    (pageNumber annot : Nat) :
    (∀ err, createIncPageUpdate fmt context pageNumber annot = .error err ↔
      findPageByNumber (context.root.Key "Pages") pageNumber = .error err) ∧
    ("Pages" ∉ context.root.Keys →
      createIncPageUpdate fmt context pageNumber annot = .error (pageNotFound pageNumber)) ∧
    (∀ page, findPageByNumber (context.root.Key "Pages") pageNumber = .ok page →
      ∃ mid, createIncPageUpdate fmt context pageNumber annot =
        .ok ("<<\n" ++ mid ++ ">>\n")) ∧
    (∀ out, createIncPageUpdate fmt context pageNumber annot = .ok out →
      ∃ mid, out = "<<\n" ++ mid ++ ">>\n") := by
  have hok : ∀ page, findPageByNumber (context.root.Key "Pages") pageNumber = .ok page →
      ∃ mid, createIncPageUpdate fmt context pageNumber annot =
        .ok ("<<\n" ++ mid ++ ">>\n") := by
    intro page hp
    refine ⟨joinAll (page.Keys.map (pageKeyText fmt page annot)) ++
      (if (page.Key "Annots").IsNull = true then "  /Annots [" ++ itoa annot ++ " 0 R]\n"
        else ""), ?_⟩
    rw [createIncPageUpdate_of_page _ _ _ _ _ hp, writePageUpdate_eq]
    simp [String.append_assoc]
  refine ⟨?_, ?_, hok, ?_⟩
  · intro err
    cases hp : findPageByNumber (context.root.Key "Pages") pageNumber with
    | error e =>
      rw [createIncPageUpdate_of_error _ _ _ _ _ hp]
      simp only [Except.error.injEq]
    | ok page =>
      rw [createIncPageUpdate_of_page _ _ _ _ _ hp]
      constructor <;> intro h <;> cases h
  · intro hk
    exact createIncPageUpdate_of_error _ _ _ _ _
      (findPageByNumber_of_isNull _ _ (Key_isNull_of_not_mem _ _ hk))
  · intro out ho
    cases hp : findPageByNumber (context.root.Key "Pages") pageNumber with
    | error e => rw [createIncPageUpdate_of_error _ _ _ _ _ hp] at ho; cases ho
    | ok page =>
      obtain ⟨mid, hm⟩ := hok page hp
      rw [hm] at ho
      simp only [Except.ok.injEq] at ho
      exact ⟨mid, ho.symm⟩

/-- Claim C16: `findPageByNumber` is a total function: on every value and ordinal it
returns a page or a page-not-found error.  On a node whose `Type` is neither `Pages` nor
`Page`, which includes a node without a `Type` key and a null, it returns the error for the
ordinal whatever the node holds under `Kids`; on a tree without leaves it returns an
error. -/
theorem findPageByNumber_total (pages : Value) (n : Nat) :
    ((∃ page, findPageByNumber pages n = .ok page) ∨
      (∃ m, findPageByNumber pages n = .error (pageNotFound m))) ∧
    ((pages.Key "Type").Name ≠ "Pages" → (pages.Key "Type").Name ≠ "Page" →
      findPageByNumber pages n = .error (pageNotFound n)) ∧
    ("Type" ∉ pages.Keys → findPageByNumber pages n = .error (pageNotFound n)) ∧
    (pages.IsNull = true → findPageByNumber pages n = .error (pageNotFound n)) ∧
    (pageLeaves pages = [] → ∃ m, findPageByNumber pages n = .error (pageNotFound m)) := by
  have hleaf : pageLeaves pages = [] → ∃ m, findPageByNumber pages n = .error (pageNotFound m) := by
    intro hl
    by_cases h1 : n = 1
    · subst h1
      exact ⟨1, by rw [findPageByNumber_one, hl]; rfl⟩
    · exact findPageByNumber_error_of_ne_one pages n h1
  refine ⟨?_, findPageByNumber_other pages n, ?_, findPageByNumber_of_isNull pages n, hleaf⟩
  · by_cases h1 : n = 1
    · subst h1
      rw [findPageByNumber_one]
      cases (pageLeaves pages).head? with
      | none => exact Or.inr ⟨1, rfl⟩
      | some page => exact Or.inl ⟨page, rfl⟩
    · exact Or.inr (findPageByNumber_error_of_ne_one pages n h1)
  · intro hk
    have hN := Name_of_isNull _ (Key_isNull_of_not_mem pages "Type" hk)
    exact findPageByNumber_other pages n (by rw [hN]; decide) (by rw [hN]; decide)

/-- Claim C18: for every tree `findPageByNumber` returns a page-not-found error when the
ordinal is not 1; for the ordinal 1 it returns the first leaf in document order (the `Page`
nodes met depth-first, left to right, through `Pages` nodes), and it succeeds exactly when
there is such a leaf. -/
theorem findPageByNumber_first_leaf_only (pages : Value) :
    (∀ n, n ≠ 1 → ∃ m, findPageByNumber pages n = .error (pageNotFound m)) ∧
    (∀ page rest, pageLeaves pages = page :: rest → findPageByNumber pages 1 = .ok page) ∧
    (pageLeaves pages = [] → findPageByNumber pages 1 = .error (pageNotFound 1)) ∧
    ((∃ page, findPageByNumber pages 1 = .ok page) ↔ pageLeaves pages ≠ []) := by
  refine ⟨fun n hn => findPageByNumber_error_of_ne_one pages n hn, ?_, ?_, ?_⟩
  · intro page rest h
    rw [findPageByNumber_one, h]; rfl
  · intro h
    rw [findPageByNumber_one, h]; rfl
  · rw [findPageByNumber_one]
    cases h : pageLeaves pages with
    | nil => simp
    | cons page rest => simp

theorem startVisualSignature_visible_ok (env : Collaborators) (context : SignContext)
    (rect : Rect) (appearance : String) (c1 : SignContext) (id : Nat) (c2 : SignContext)
    (hca : env.createAppearance context rect = (.ok appearance, c1))
    (hao : env.addObject c1 appearance = (.ok id, c2)) :
    ∃ buf, startVisualSignature env context true rect = (.ok buf, c2) := by
  simp only [startVisualSignature, if_true, hca, hao]
  exact ⟨_, rfl⟩

/-- Claim C19: when `visible` is true, `createAppearance` and `addObject` succeed, the root
has a `Pages` key and `findPageByNumber` fails, `createVisualSignature` returns the error of
the locator and no bytes, and leaves the context that `addObject` left (with the object it
registered) with `RootString` overwritten by the reference of the root; `pageObjectId` is
as `addObject` left it.  With `visible = false` the context of the call is left with only
`RootString` overwritten. -/
theorem createVisualSignature_not_atomic (env : Collaborators) (context : SignContext)
    (pageNumber : Nat) (rect : Rect) (appearance : String) (c1 : SignContext) (id : Nat)
    (c2 : SignContext) (err : GoError)
    (hca : env.createAppearance context rect = (.ok appearance, c1))
    (hao : env.addObject c1 appearance = (.ok id, c2))
    (hf : foundPages c2.root.Keys = true)
    (hp : findPageByNumber (c2.root.Key "Pages") pageNumber = .error err) :
    createVisualSignature env context true pageNumber rect =
      (.error err,
        { c2 with
          CatalogData := { c2.CatalogData with
            RootString := itoa c2.root.GetPtr.id ++ " " ++ itoa c2.root.GetPtr.gen ++ " R" } }) ∧
    (createVisualSignature env context true pageNumber rect).2.newObjects = c2.newObjects ∧
    (createVisualSignature env context true pageNumber rect).2.CatalogData.RootString =
      itoa c2.root.GetPtr.id ++ " " ++ itoa c2.root.GetPtr.gen ++ " R" ∧
    (createVisualSignature env context true pageNumber rect).2.VisualSignData.pageObjectId =
      c2.VisualSignData.pageObjectId ∧
    (∀ e, foundPages context.root.Keys = true →
      findPageByNumber (context.root.Key "Pages") pageNumber = .error e →
      createVisualSignature env context false pageNumber rect =
        (.error e,
          { context with
            CatalogData := { context.CatalogData with
              RootString :=
                itoa context.root.GetPtr.id ++ " " ++ itoa context.root.GetPtr.gen ++ " R" } })) := by
  obtain ⟨buf, hs⟩ := startVisualSignature_visible_ok env context rect appearance c1 id c2 hca hao
  have h : createVisualSignature env context true pageNumber rect =
      (.error err, withRootString c2) := by
    rw [createVisualSignature_of_start _ _ _ _ _ _ _ hs,
      finishVisualSignature_notFound _ _ _ err hf hp]
  refine ⟨h, by rw [h]; rfl, by rw [h]; rfl, by rw [h]; rfl, ?_⟩
  intro e hf' hp'
  obtain ⟨buf', hs', _, _⟩ := startVisualSignature_invisible env context rect
  rw [createVisualSignature_of_start _ _ _ _ _ _ _ hs',
    finishVisualSignature_notFound _ _ _ e hf' hp']
  rfl

theorem createVisualSignature_not_atomic_witness :
    createVisualSignature sampleEnv
        (sampleContext (sampleReader (samplePages [samplePage 4 0])) 0) true 2 sampleRect =
      (.error (pageNotFound 2),
        { ({ sampleContext (sampleReader (samplePages [samplePage 4 0])) 0 with
              newObjects := ["APP"] } : SignContext) with
          CatalogData := { ({ sampleContext (sampleReader (samplePages [samplePage 4 0])) 0 with
              newObjects := ["APP"] } : SignContext).CatalogData with
            RootString := itoa ({ sampleContext (sampleReader (samplePages [samplePage 4 0])) 0 with
                newObjects := ["APP"] } : SignContext).root.GetPtr.id ++ " " ++
              itoa ({ sampleContext (sampleReader (samplePages [samplePage 4 0])) 0 with
                newObjects := ["APP"] } : SignContext).root.GetPtr.gen ++ " R" } }) ∧
    (createVisualSignature sampleEnv
        (sampleContext (sampleReader (samplePages [samplePage 4 0])) 0) true 2
        sampleRect).2.newObjects =
      ({ sampleContext (sampleReader (samplePages [samplePage 4 0])) 0 with
          newObjects := ["APP"] } : SignContext).newObjects ∧
    (createVisualSignature sampleEnv
        (sampleContext (sampleReader (samplePages [samplePage 4 0])) 0) true 2
        sampleRect).2.CatalogData.RootString =
      itoa ({ sampleContext (sampleReader (samplePages [samplePage 4 0])) 0 with
          newObjects := ["APP"] } : SignContext).root.GetPtr.id ++ " " ++
        itoa ({ sampleContext (sampleReader (samplePages [samplePage 4 0])) 0 with
          newObjects := ["APP"] } : SignContext).root.GetPtr.gen ++ " R" ∧
    (createVisualSignature sampleEnv
        (sampleContext (sampleReader (samplePages [samplePage 4 0])) 0) true 2
        sampleRect).2.VisualSignData.pageObjectId =
      ({ sampleContext (sampleReader (samplePages [samplePage 4 0])) 0 with
          newObjects := ["APP"] } : SignContext).VisualSignData.pageObjectId ∧
    (∀ e, foundPages (sampleContext (sampleReader (samplePages [samplePage 4 0])) 0).root.Keys =
        true →
      findPageByNumber
        ((sampleContext (sampleReader (samplePages [samplePage 4 0])) 0).root.Key "Pages") 2 =
          .error e →
      createVisualSignature sampleEnv
          (sampleContext (sampleReader (samplePages [samplePage 4 0])) 0) false 2 sampleRect =
        (.error e,
          { sampleContext (sampleReader (samplePages [samplePage 4 0])) 0 with
            CatalogData := { (sampleContext (sampleReader (samplePages [samplePage 4 0])) 0).CatalogData with
              RootString :=
                itoa (sampleContext (sampleReader (samplePages [samplePage 4 0])) 0).root.GetPtr.id ++
                  " " ++
                  itoa (sampleContext (sampleReader (samplePages [samplePage 4 0])) 0).root.GetPtr.gen ++
                  " R" } })) :=
  createVisualSignature_not_atomic sampleEnv
    (sampleContext (sampleReader (samplePages [samplePage 4 0])) 0) 2 sampleRect "APP"
    (sampleContext (sampleReader (samplePages [samplePage 4 0])) 0) 14
    { sampleContext (sampleReader (samplePages [samplePage 4 0])) 0 with newObjects := ["APP"] }
    (pageNotFound 2) rfl rfl
    (by rw [show ∀ c : SignContext, ({ c with newObjects := ["APP"] } : SignContext).root = c.root
          from fun _ => rfl]; exact sampleContext_found _ _)
    (by rw [show ∀ c : SignContext, ({ c with newObjects := ["APP"] } : SignContext).root = c.root
          from fun _ => rfl, sampleContext_pages,
          findPageByNumber_samplePages_one _ _ (samplePage_type 4 0)]
        rfl)

theorem pageKeyText_Annots_range (fmt : ScalarFmt) (page : Value) (annot : Nat) :
    pageKeyText fmt page annot "Annots" =
      "  /Annots [\n" ++
        joinAll ((List.range (page.Key "Annots").Len).map
          (fun i => annotRefLine ((page.Key "Annots").Index i).GetPtr.id ++ "\n")) ++
        (annotRefLine annot ++ "\n") ++ "  ]\n" := by
  have hk : ¬ ("Annots" = "Contents" ∨ "Annots" = "Parent") := by decide
  simp only [pageKeyText, writePageKey, if_neg hk, if_true]
  have e := foldl_append_text
    (fun i => "    " ++ itoa ((page.Key "Annots").Index i).GetPtr.id ++ " 0 R\n")
    (List.range (page.Key "Annots").Len) ("" ++ "  /Annots [\n")
  have e' : (List.range (page.Key "Annots").Len).foldl (writeAnnotEntry page "Annots")
      ("" ++ "  /Annots [\n") = _ := e
  rw [e']
  have hm : (List.range (page.Key "Annots").Len).map
      (fun i => "    " ++ itoa ((page.Key "Annots").Index i).GetPtr.id ++ " 0 R\n") =
      (List.range (page.Key "Annots").Len).map
        (fun i => annotRefLine ((page.Key "Annots").Index i).GetPtr.id ++ "\n") := by
    apply List.map_congr_left
    intro v _
    apply String.ext
    simp [annotRefLine, String.data_append]
  rw [hm]
  apply String.ext
  simp [annotRefLine, String.data_append]

theorem filter_invisibleLines_V : invisibleLines.filter (hasKey "V") = [] := by decide

theorem filter_fieldLines_V (c : SignContext) :
    (fieldLines c).filter (hasKey "V") = ["  /V " ++ itoa c.SignData.objectId ++ " 0 R"] := by
  simp [hasKey, fieldLines, String.data_append, List.isPrefixOf, List.filter]

theorem hasKey_V_lines (ptr : ObjPtr) (id : Nat) (rect : Rect) :
    hasKey "V" (pageLine ptr) = false ∧ hasKey "V" (appearanceLine id) = false ∧
      hasKey "V" (rectLine rect) = false := by
  simp [hasKey, pageLine, appearanceLine, rectLine, String.data_append, List.isPrefixOf]

theorem filter_visibleLines_V (rect : Rect) (id : Nat) :
    (visibleLines rect id).filter (hasKey "V") = [] := by
  have h1 : hasKey "V" "<<" = false := by decide
  have h2 : hasKey "V" "  /Type /Annot" = false := by decide
  have h3 : hasKey "V" "  /Subtype /Widget" = false := by decide
  simp [visibleLines, List.filter, h1, h2, h3, (hasKey_V_lines ⟨0, 0⟩ id rect).2.1,
    (hasKey_V_lines ⟨0, 0⟩ id rect).2.2]

theorem pageLine_gen_injective (id g1 g2 : Nat) (h : pageLine ⟨id, g1⟩ = pageLine ⟨id, g2⟩) :
    g1 = g2 := by
  have h2 := congrArg String.data h
  simp only [pageLine, String.data_append, List.append_assoc] at h2
  have h3 := List.append_cancel_left (List.append_cancel_left (List.append_cancel_left h2))
  exact itoa_injective (String.ext (List.append_cancel_right h3))

theorem sampleFullPageGen_type : (sampleFullPageGen.Key "Type").Name = "Page" := by
  simp [sampleFullPageGen, Value.Key, Value.lookupKey, Value.Name]

/-- Claim C20: two pages with the same keys, the same text for the keys other than
`Contents`, `Parent` and `Annots`, and the same identifiers (whatever the generations) for
the values of `Contents` and `Parent` and for the entries of `Annots`, give the same output
of `createIncPageUpdate`; the tokens written for `Contents`, `Parent`, the entries of
`Annots` and the new annotation end in `0 R`.  In the output of `createVisualSignature` the
`/V` line and the `/AP` line end in `0 R` as well, and the `/P` line carries the generation
of the page: pages of different generations give different `/P` lines. -/
theorem createIncPageUpdate_generation_free (fmt : ScalarFmt) (context1 context2 : SignContext)
    (n1 n2 annot : Nat) (page1 page2 : Value)
    (hp1 : findPageByNumber (context1.root.Key "Pages") n1 = .ok page1)
    (hp2 : findPageByNumber (context2.root.Key "Pages") n2 = .ok page2)
    (hkeys : page1.Keys = page2.Keys)
    (hother : ∀ key ∈ page1.Keys, key ≠ "Contents" → key ≠ "Parent" → key ≠ "Annots" →
      (page1.Key key).String fmt = (page2.Key key).String fmt)
    (hrefs : ∀ key, key = "Contents" ∨ key = "Parent" →
      (page1.Key key).GetPtr.id = (page2.Key key).GetPtr.id)
    (hlen : (page1.Key "Annots").Len = (page2.Key "Annots").Len)
    (hann : ∀ i, i < (page1.Key "Annots").Len →
      ((page1.Key "Annots").Index i).GetPtr.id = ((page2.Key "Annots").Index i).GetPtr.id)
    (hnull : (page1.Key "Annots").IsNull = (page2.Key "Annots").IsNull) :
    createIncPageUpdate fmt context1 n1 annot = createIncPageUpdate fmt context2 n2 annot ∧
    (∀ key, key = "Contents" ∨ key = "Parent" →
      pageKeyText fmt page1 annot key =
        "  /" ++ key ++ " " ++ itoa (page1.Key key).GetPtr.id ++ " 0 R\n") ∧
    pageKeyText fmt page1 annot "Annots" =
      "  /Annots [\n" ++
        joinAll ((List.range (page1.Key "Annots").Len).map
          (fun i => "    " ++ itoa ((page1.Key "Annots").Index i).GetPtr.id ++ " 0 R" ++ "\n")) ++
        ("    " ++ itoa annot ++ " 0 R" ++ "\n") ++ "  ]\n" ∧
    (∀ (env : Collaborators) (context : SignContext) (visible : Bool) (pageNumber : Nat)
        (rect : Rect) (out : String),
      (createVisualSignature env context visible pageNumber rect).1 = .ok out →
      ∃ buf c, startVisualSignature env context visible rect = (.ok buf, c) ∧
        (linesOf out).filter (hasKey "V") = ["  /V " ++ itoa c.SignData.objectId ++ " 0 R"] ∧
        (visible = true → ∃ id,
          (linesOf out).filter (hasKey "AP") = ["  /AP << /N " ++ itoa id ++ " 0 R >>"]) ∧
        (foundPages c.root.Keys = true → ∃ page,
          findPageByNumber (c.root.Key "Pages") pageNumber = .ok page ∧
          (linesOf out).filter (hasKey "P") =
            ["  /P " ++ itoa page.GetPtr.id ++ " " ++ itoa page.GetPtr.gen ++ " R"])) ∧
    (∀ id g1 g2 : Nat,
      "  /P " ++ itoa id ++ " " ++ itoa g1 ++ " R" = "  /P " ++ itoa id ++ " " ++ itoa g2 ++ " R" →
      g1 = g2) := by
  refine ⟨?_, fun key h => pageKeyText_ref fmt page1 annot key h,
    pageKeyText_Annots_range fmt page1 annot, ?_, fun id g1 g2 h => pageLine_gen_injective id g1 g2 h⟩
  · rw [createIncPageUpdate_of_page _ _ _ _ _ hp1, createIncPageUpdate_of_page _ _ _ _ _ hp2,
      writePageUpdate_eq, writePageUpdate_eq, hnull]
    have hm : page1.Keys.map (pageKeyText fmt page1 annot) =
        page2.Keys.map (pageKeyText fmt page2 annot) := by
      rw [← hkeys]
      apply List.map_congr_left
      intro key hmem
      by_cases hc : key = "Contents" ∨ key = "Parent"
      · rw [pageKeyText_ref fmt page1 annot key hc, pageKeyText_ref fmt page2 annot key hc,
          hrefs key hc]
      · by_cases ha : key = "Annots"
        · subst ha
          rw [pageKeyText_Annots_range, pageKeyText_Annots_range, ← hlen]
          have hr : (List.range (page1.Key "Annots").Len).map
              (fun i => annotRefLine ((page1.Key "Annots").Index i).GetPtr.id ++ "\n") =
              (List.range (page1.Key "Annots").Len).map
                (fun i => annotRefLine ((page2.Key "Annots").Index i).GetPtr.id ++ "\n") := by
            apply List.map_congr_left
            intro i hi
            rw [hann i (List.mem_range.mp hi)]
          rw [hr]
        · have h1 : key ≠ "Contents" := fun h => hc (Or.inl h)
          have h2 : key ≠ "Parent" := fun h => hc (Or.inr h)
          rw [pageKeyText_other fmt page1 annot key h1 h2 ha,
            pageKeyText_other fmt page2 annot key h1 h2 ha, hother key hmem h1 h2 ha]
    rw [hm]
  · intro env context visible pageNumber rect out h
    obtain ⟨buf, c, hs, _, hcase⟩ := createVisualSignature_ok _ _ _ _ _ _ h
    refine ⟨buf, c, hs, ?_, ?_, ?_⟩
    · have hb : (linesOf buf).filter (hasKey "V") = [] := by
        cases visible with
        | false =>
          rw [(startVisualSignature_invisible_lines _ _ _ _ _ hs).2]
          exact filter_invisibleLines_V
        | true =>
          obtain ⟨_, _, id, _, _, _, hl⟩ := startVisualSignature_visible _ _ _ _ _ hs
          rw [hl]; exact filter_visibleLines_V rect id
      rcases hcase with ⟨_, _, hl⟩ | ⟨_, page, _, _, hl⟩
      · rw [hl, List.filter_append, hb, filter_fieldLines_V]; rfl
      · rw [hl, List.filter_append, List.filter_append, hb, filter_fieldLines_V,
          List.filter_cons, if_neg (by simp [(hasKey_V_lines page.GetPtr 0 rect).1])]
        rfl
    · intro hv
      subst hv
      obtain ⟨_, _, id, _, _, _, hb⟩ := startVisualSignature_visible _ _ _ _ _ hs
      refine ⟨id, ?_⟩
      rcases hcase with ⟨_, _, hl⟩ | ⟨_, page, _, _, hl⟩
      · rw [hl, hb]
        simp [List.filter_append, filter_visibleLines_AP, filter_fieldLines_AP, appearanceLine]
      · rw [hl, hb]
        simp [List.filter_append, List.filter_cons, filter_visibleLines_AP,
          filter_fieldLines_AP, hasKey_pageLine, appearanceLine]
    · intro hf
      have hb : (linesOf buf).filter (hasKey "P") = [] := by
        cases visible with
        | false =>
          rw [(startVisualSignature_invisible_lines _ _ _ _ _ hs).2]
          exact filter_invisibleLines_P
        | true =>
          obtain ⟨_, _, id, _, _, _, hl⟩ := startVisualSignature_visible _ _ _ _ _ hs
          rw [hl]; exact filter_visibleLines_P rect id
      rcases hcase with ⟨hf', _, _⟩ | ⟨_, page, hp, _, hl⟩
      · rw [hf] at hf'; cases hf'
      · refine ⟨page, hp, ?_⟩
        rw [hl, List.filter_append, List.filter_append, hb, filter_fieldLines_P,
          List.filter_cons, if_pos (hasKey_pageLine _).1]
        rfl

theorem createIncPageUpdate_generation_free_witness :
    (sampleFullPage.Key "Contents").GetPtr = ⟨6, 2⟩ ∧
    (sampleFullPageGen.Key "Contents").GetPtr = ⟨6, 0⟩ ∧
    createIncPageUpdate sampleFmt
        (sampleContext (sampleReader (samplePages [sampleFullPage])) 0) 1 15 =
      createIncPageUpdate sampleFmt
        (sampleContext (sampleReader (samplePages [sampleFullPageGen])) 0) 1 15 :=
  ⟨by simp [sampleFullPage, Value.Key, Value.lookupKey, Value.GetPtr],
   by simp [sampleFullPageGen, Value.Key, Value.lookupKey, Value.GetPtr],
   (createIncPageUpdate_generation_free sampleFmt
      (sampleContext (sampleReader (samplePages [sampleFullPage])) 0)
      (sampleContext (sampleReader (samplePages [sampleFullPageGen])) 0) 1 1 15
      sampleFullPage sampleFullPageGen
      (sample_lookup _ _ sampleFullPage_type) (sample_lookup _ _ sampleFullPageGen_type)
      rfl
      (by
        intro key hmem h1 h2 h3
        have hk : sampleFullPage.Keys =
            ["Annots", "Contents", "MediaBox", "Parent", "Resources", "Type"] := rfl
        rw [hk] at hmem
        simp only [List.mem_cons, List.mem_singleton, List.not_mem_nil, or_false] at hmem
        rcases hmem with rfl | rfl | rfl | rfl | rfl | rfl
        · exact absurd rfl h3
        · exact absurd rfl h1
        · rfl
        · exact absurd rfl h2
        · rfl
        · rfl)
      (by
        intro key hk
        rcases hk with rfl | rfl <;>
          simp [sampleFullPage, sampleFullPageGen, Value.Key, Value.lookupKey, Value.GetPtr])
      rfl
      (by
        intro i hi
        have hl : (sampleFullPage.Key "Annots").Len = 2 := by
          simp [sampleFullPage, Value.Key, Value.lookupKey, Value.Len]
        rw [hl] at hi
        interval_cases i <;>
          simp [sampleFullPage, sampleFullPageGen, Value.Key, Value.lookupKey, Value.Index,
            Value.GetPtr])
      rfl).1⟩

end PdfSign
